import Mathlib

/-!
Verification development for the raffia CSS-family tokenizer and selector
parser.  The Rust sources `src/tokenizer/mod.rs` and `src/parser/selector.rs`
are embedded shallowly: the mutable tokenizer state becomes an explicit state
record, `&str` slices become `List Char` extracted by byte offsets, and every
fallible Rust function returns a `POut` value with explicit `err`
and `panic` outcomes (Rust `assert!`, `todo!`, `unreachable!` and
`Option::expect` map to `panic`; `debug_assert!` is compiled out in release
builds and is modelled as a no-op).  Loops over the character stream become
structural recursion on the character list, with a fuel parameter (always
instantiated to more than the number of remaining characters) for the loops
that consume a variable number of characters per iteration.
-/

/-- Byte-offset half-open interval `[start, stop)`; Rust `Span { start, end }`
(the Rust field `end` is a Lean keyword and is spelled `stop` here). -/
structure Span where
  start : Nat
  stop : Nat
deriving DecidableEq, Repr

/-- Input dialect, Rust `config::Syntax`. -/
inductive Syntax where
  | css
  | scss
  | sass
  | less
deriving DecidableEq, Repr

/-- Error kinds raised by the tokenizer and the selector parser
(`error::ErrorKind`; the file `error.rs` is not part of the given sources, the
variant list is taken from the uses in the given sources and spec section 7). -/
inductive ErrorKind where
  | unknownToken
  | unexpectedEof
  | unexpectedLinebreak
  | invalidNumber
  | invalidEscape
  | invalidHash
  | expectRightBraceForLessVar
  | expectNoWsOrComment
  | unexpected
  | expectWqName
  | expectAttributeSelectorMatcher
  | expectAttributeSelectorValue
  | expectIdSelector
  | expectSimpleSelector
  | expectTypeSelector
  | expectUnsignedInteger
  | expectInteger
  | invalidIdSelectorName
  | invalidAnPlusB
deriving DecidableEq, Repr

/-- Rust `Error { kind, span }`. -/
structure PError where
  kind : ErrorKind
  span : Span
deriving DecidableEq, Repr

/-- Outcome of an embedded Rust computation: `ok` for `Ok`, `err` for a
returned `Err`, `panic` for `assert!` failures / `todo!()` / `unreachable!()`
/ `Option::expect`, and `outOfFuel` for exhausted fuel (never reached when the
fuel exceeds the remaining input, as it always does at the call sites). -/
inductive POut (α : Type) where
  | ok (a : α)
  | err (e : PError)
  | panic
  | outOfFuel
deriving Repr, DecidableEq

/-- Monadic bind on `POut`, the embedding of the Rust `?` operator. -/
def POut.bind {α β : Type} : POut α → (α → POut β) → POut β
  | .ok a, f => f a
  | .err e, _ => .err e
  | .panic, _ => .panic
  | .outOfFuel, _ => .outOfFuel

/-- Rust `char::is_ascii_whitespace`: space, tab, newline, form feed,
carriage return. -/
def is_ascii_whitespace (c : Char) : Bool :=
  c = ' ' || c = '\t' || c = '\n' || c = '\x0c' || c = '\r'

/-- Rust `char::is_ascii_digit`. -/
def is_ascii_digit (c : Char) : Bool :=
  '0' ≤ c && c ≤ '9'

/-- Rust `char::is_ascii_alphabetic`. -/
def is_ascii_alphabetic (c : Char) : Bool :=
  ('a' ≤ c && c ≤ 'z') || ('A' ≤ c && c ≤ 'Z')

/-- Rust `char::is_ascii_alphanumeric`. -/
def is_ascii_alphanumeric (c : Char) : Bool :=
  is_ascii_alphabetic c || is_ascii_digit c

/-- Rust `char::is_ascii_hexdigit`. -/
def is_ascii_hexdigit (c : Char) : Bool :=
  is_ascii_digit c || ('a' ≤ c && c ≤ 'f') || ('A' ≤ c && c ≤ 'F')

/-- Rust `char::is_ascii`. -/
def char_is_ascii (c : Char) : Bool :=
  c.toNat < 128

/-- `fn is_start_of_ident` at the bottom of `tokenizer/mod.rs`. -/
def is_start_of_ident (c : Char) : Bool :=
  is_ascii_alphabetic c || c = '-' || c = '_' || !char_is_ascii c || c = '\\'

/-- ASCII lower-casing of one character, as used by
`str::eq_ignore_ascii_case`. -/
def ascii_lower (c : Char) : Char :=
  if 'A' ≤ c && c ≤ 'Z' then Char.ofNat (c.toNat + 32) else c

/-- Rust `str::eq_ignore_ascii_case` on character lists. -/
def eq_ignore_ascii_case : List Char → List Char → Bool
  | [], [] => true
  | a :: as', b :: bs => ascii_lower a = ascii_lower b && eq_ignore_ascii_case as' bs
  | _, _ => false

/-- Rust `str::strip_prefix` (case sensitive) on character lists. -/
def strip_pre : List Char → List Char → Option (List Char)
  | [], s => some s
  | _ :: _, [] => none
  | p :: ps, c :: cs => if p = c then strip_pre ps cs else none

/-- Value of an ASCII hex digit. -/
def hex_digit_val (c : Char) : Nat :=
  if is_ascii_digit c then c.toNat - '0'.toNat
  else if 'a' ≤ c && c ≤ 'f' then c.toNat - 'a'.toNat + 10
  else c.toNat - 'A'.toNat + 10

/-- Rust `char::from_u32(u).unwrap_or(char::REPLACEMENT_CHARACTER)`:
invalid scalar values become U+FFFD. -/
def char_from_u32_or_replacement (u : Nat) : Char :=
  if h : u < 0xd800 ∨ (0xe000 ≤ u ∧ u < 0x110000) then
    Char.ofNatAux u (by rcases h with h | h <;> simp [UInt32.isValidChar, Nat.isValidChar] <;> omega)
  else '�'

/-- Hex-escape digit loop inside `handle_escape`: having already consumed one
hex digit (accumulated in `acc`, `count = 1`), consume up to five more hex
digits, then one optional whitespace character.  Returns the accumulated code
point and the remaining characters.  (The Rust code re-slices
`s.get(start..start + count)` and parses it with `from_str_radix`; since the
hex digits are ASCII and just came from the string, that slice is exactly the
digits consumed, so accumulating their value directly is the same
computation, and `from_str_radix` cannot fail on them.) -/
def handle_escape_hex : List Char → Nat → Nat → Nat × List Char
  | [], _, acc => (acc, [])
  | c :: rest, count, acc =>
    if is_ascii_hexdigit c && count < 6 then
      handle_escape_hex rest (count + 1) (acc * 16 + hex_digit_val c)
    else if is_ascii_whitespace c then (acc, rest)
    else (acc, c :: rest)

/-- Main loop of `fn handle_escape` (tokenizer/mod.rs): rewrites `\`-escapes
to their code points.  `fuel` exceeds the remaining characters at every call
site, and each iteration consumes at least one character. -/
def handle_escape_go : Nat → List Char → List Char → Except ErrorKind (List Char)
  | 0, _, _ => .error .invalidEscape
  | _ + 1, [], acc => .ok acc
  | fuel + 1, c :: rest, acc =>
    if c = '\\' then
      match rest with
      | c2 :: rest2 =>
        if is_ascii_hexdigit c2 then
          let (u, rest3) := handle_escape_hex rest2 1 (hex_digit_val c2)
          handle_escape_go fuel rest3 (acc ++ [char_from_u32_or_replacement u])
        else handle_escape_go fuel rest2 (acc ++ [c2])
      | [] => .error .invalidEscape
    else handle_escape_go fuel rest (acc ++ [c])

/-- `fn handle_escape(s: &str) -> Result<Cow<str>, ErrorKind>`: a string
without `\` is returned unchanged, otherwise escapes are rewritten. -/
def handle_escape (s : List Char) : Except ErrorKind (List Char) :=
  if s.contains '\\' then handle_escape_go (s.length + 1) s [] else .ok s

/-- Token payload of `token::Ident { name, raw, span }`. -/
structure TIdent where
  name : List Char
  raw : List Char
  span : Span
deriving DecidableEq, Repr

/-- Token payload of `token::Number { value, raw, span }`.  The Rust `value`
is the `f64` produced by `raw.parse()`; it is modelled as a rational, which
agrees with the IEEE double exactly on the small integer-valued lexemes this
development evaluates. -/
structure TNumber where
  value : ℚ
  raw : List Char
  span : Span
deriving DecidableEq, Repr

/-- The token sum type (`tokenizer/token.rs` is not among the given sources;
the constructors and their fields are modelled from the uses in
`tokenizer/mod.rs` and the token list in spec section 3).  No `DecidableEq`
is derived for it (the derived instance is enormous); token equalities in the
theorems below are settled by `rfl`. -/
inductive Token where
  | ident (id : TIdent)
  | number (n : TNumber)
  | dimension (value : TNumber) (unit : TIdent) (span : Span)
  | percentage (value : TNumber) (span : Span)
  | str (raw value : List Char) (span : Span)
  | strTemplate (raw value : List Char) (tail : Bool) (span : Span)
  | urlPrefix (id : TIdent) (span : Span)
  | urlRaw (raw value : List Char) (span : Span)
  | urlTemplate (raw value : List Char) (tail : Bool) (span : Span)
  | hash (value raw rawWithoutHash : List Char) (span : Span)
  | atKeyword (id : TIdent) (span : Span)
  | dollarVar (id : TIdent) (span : Span)
  | atLBraceVar (id : TIdent) (span : Span)
  | indent (span : Span)
  | dedent (span : Span)
  | linebreak (span : Span)
  | eof (span : Span)
  | colon (span : Span)
  | colonColon (span : Span)
  | lParen (span : Span)
  | rParen (span : Span)
  | lBracket (span : Span)
  | rBracket (span : Span)
  | lBrace (span : Span)
  | rBrace (span : Span)
  | solidus (span : Span)
  | comma (span : Span)
  | semicolon (span : Span)
  | dot (span : Span)
  | greaterThan (span : Span)
  | greaterThanEqual (span : Span)
  | lessThan (span : Span)
  | lessThanEqual (span : Span)
  | plus (span : Span)
  | plusUnderscore (span : Span)
  | minus (span : Span)
  | tilde (span : Span)
  | tildeEqual (span : Span)
  | ampersand (span : Span)
  | asterisk (span : Span)
  | asteriskEqual (span : Span)
  | bar (span : Span)
  | barBar (span : Span)
  | barEqual (span : Span)
  | caretEqual (span : Span)
  | dollarEqual (span : Span)
  | equal (span : Span)
  | equalEqual (span : Span)
  | exclamationEqual (span : Span)
  | percent (span : Span)
  | numberSign (span : Span)
  | hashLBrace (span : Span)

/-- `Token::span()` (derived `Spanned` in Rust). -/
def Token.span : Token → Span
  | .ident i => i.span
  | .number n => n.span
  | .dimension _ _ s => s
  | .percentage _ s => s
  | .str _ _ s => s
  | .strTemplate _ _ _ s => s
  | .urlPrefix _ s => s
  | .urlRaw _ _ s => s
  | .urlTemplate _ _ _ s => s
  | .hash _ _ _ s => s
  | .atKeyword _ s => s
  | .dollarVar _ s => s
  | .atLBraceVar _ s => s
  | .indent s => s
  | .dedent s => s
  | .linebreak s => s
  | .eof s => s
  | .colon s => s
  | .colonColon s => s
  | .lParen s => s
  | .rParen s => s
  | .lBracket s => s
  | .rBracket s => s
  | .lBrace s => s
  | .rBrace s => s
  | .solidus s => s
  | .comma s => s
  | .semicolon s => s
  | .dot s => s
  | .greaterThan s => s
  | .greaterThanEqual s => s
  | .lessThan s => s
  | .lessThanEqual s => s
  | .plus s => s
  | .plusUnderscore s => s
  | .minus s => s
  | .tilde s => s
  | .tildeEqual s => s
  | .ampersand s => s
  | .asterisk s => s
  | .asteriskEqual s => s
  | .bar s => s
  | .barBar s => s
  | .barEqual s => s
  | .caretEqual s => s
  | .dollarEqual s => s
  | .equal s => s
  | .equalEqual s => s
  | .exclamationEqual s => s
  | .percent s => s
  | .numberSign s => s
  | .hashLBrace s => s

/-- Rust `Comment`: block (`/* ... */`) or line (`// ...`) with the content
slice and the span of the whole comment. -/
inductive Comment where
  | block (content : List Char) (span : Span)
  | line (content : List Char) (span : Span)
deriving DecidableEq, Repr

/-- `enum TemplateState` of the tokenizer. -/
inductive TemplateState where
  | interpolation
  | static
deriving DecidableEq, Repr

/-- `enum UrlState` of the tokenizer. -/
inductive UrlState where
  | none
  | ambiguous
  | template
deriving DecidableEq, Repr

/-- `struct TokenizerState`: the cloneable mutable state.  The
`Peekable<CharIndices>` iterator is the list of remaining
(byte offset, char) pairs. -/
structure TokenizerState where
  chars : List (Nat × Char)
  indent_size : Nat
  template : List (TemplateState × Char)
  url : UrlState
deriving DecidableEq, Repr

/-- The immutable part of `struct Tokenizer`: the source (as its full
char-indices sequence plus its byte length) and the dialect
(Rust field `syntax`, a Lean keyword, spelled `dialect` here).  The comments
sink is not part of this record; comment emission is returned explicitly by
`bump` and threading into a sink is modelled separately. -/
structure Ctx where
  src : List (Nat × Char)
  srcLen : Nat
  dialect : Syntax
deriving DecidableEq, Repr

/-- `char_indices` of a source text: (byte offset, char) pairs. -/
def char_indices : List Char → Nat → List (Nat × Char)
  | [], _ => []
  | c :: rest, off => (off, c) :: char_indices rest (off + c.utf8Size)

/-- Total byte length of a source text. -/
def utf8_len (s : List Char) : Nat :=
  (s.map Char.utf8Size).sum

/-- Build the tokenizer context for a source text. -/
def mk_ctx (s : List Char) (dialect : Syntax) : Ctx :=
  ⟨char_indices s 0, utf8_len s, dialect⟩

/-- `Tokenizer::new`: the initial state. -/
def init_state (ctx : Ctx) : TokenizerState :=
  ⟨ctx.src, 0, [], .none⟩

/-- `source.get_unchecked(a..b)` for `a`, `b` on char boundaries: the
characters of the source whose byte offsets lie in `[a, b)`. -/
def slice_bytes (ctx : Ctx) (a b : Nat) : List Char :=
  (ctx.src.filter (fun p => a ≤ p.1 && p.1 < b)).map (fun p => p.2)

/-- `Tokenizer::current_offset`: byte offset of the next unconsumed char, or
the source length at EOF. -/
def current_offset (ctx : Ctx) (st : TokenizerState) : Nat :=
  match st.chars with
  | [] => ctx.srcLen
  | (i, _) :: _ => i

/-- `Tokenizer::peek_one_char`. -/
def peek_one_char (st : TokenizerState) : Option (Nat × Char) :=
  st.chars.head?

/-- `Tokenizer::peek_two_chars`. -/
def peek_two_chars (st : TokenizerState) : Option (Nat × Char × Char) :=
  match st.chars with
  | (i, a) :: (_, b) :: _ => some (i, a, b)
  | _ => none

/-- `Tokenizer::build_eof_error`. -/
def build_eof_error (ctx : Ctx) (st : TokenizerState) : PError :=
  ⟨.unexpectedEof, ⟨current_offset ctx st, current_offset ctx st⟩⟩

/-- Loop of `Tokenizer::skip_ws`: drop leading ASCII whitespace. -/
def skip_ws_chars : List (Nat × Char) → List (Nat × Char)
  | [] => []
  | (i, c) :: rest => if is_ascii_whitespace c then skip_ws_chars rest else (i, c) :: rest

/-- `Tokenizer::skip_ws`. -/
def skip_ws (st : TokenizerState) : TokenizerState :=
  { st with chars := skip_ws_chars st.chars }

/-- `matches!(self.state.chars.peek(), Some((_, '\n')))` in `scan_indent`:
the next character is a line feed. -/
def head_is_lf : List (Nat × Char) → Bool
  | (_, '\n') :: _ => true
  | _ => false

/-- Loop of `Tokenizer::scan_indent`: consume whitespace, remembering in
`start` the byte offset just after the most recent line break (`\n`, or `\r`
followed by `\n`).  Stops at the first non-whitespace character (left
unconsumed) or at EOF. -/
def scan_indent_go : List (Nat × Char) → Option Nat → Option Nat × List (Nat × Char)
  | [], start => (start, [])
  | (i, c) :: rest, start =>
    if is_ascii_whitespace c then
      let start :=
        if c = '\n' || (c = '\r' && head_is_lf rest) then some (i + 1)
        else start
      scan_indent_go rest start
    else (start, (i, c) :: rest)

/-- `Tokenizer::scan_indent` (Sass only): after consuming a whitespace run,
compare the width after the last line break with `indent_size` and produce
`Indent` / `Dedent` / `Linebreak`; no token if the run had no line break;
`Eof` if the run reaches the end of input. -/
def scan_indent (ctx : Ctx) (st : TokenizerState) : Option Token × TokenizerState :=
  match scan_indent_go st.chars none with
  | (_, []) =>
    let offset := ctx.srcLen
    (some (.eof ⟨offset, offset⟩), { st with chars := [] })
  | (none, (i, c) :: rest) => (none, { st with chars := (i, c) :: rest })
  | (some s, (i, c) :: rest) =>
    let len := i - s
    let span : Span := ⟨s, i⟩
    if len > st.indent_size then
      (some (.indent span), { st with chars := (i, c) :: rest, indent_size := len })
    else if len < st.indent_size then
      (some (.dedent span), { st with chars := (i, c) :: rest, indent_size := len })
    else
      (some (.linebreak span), { st with chars := (i, c) :: rest })

/-- Loop of `Tokenizer::scan_block_comment`: scan to `*/` (consumed, content
stops before it) or, when fewer than two characters remain so that
`peek_two_chars` is `None`, stop at the source length without consuming the
remaining character.  Returns (content_end, end, remaining). -/
def scan_block_comment_go (srcLen : Nat) : List (Nat × Char) → Nat × Nat × List (Nat × Char)
  | (i, '*') :: (_, '/') :: rest => (i, i + 2, rest)
  | _ :: b :: rest => scan_block_comment_go srcLen (b :: rest)
  | l => (srcLen, srcLen, l)

/-- `Tokenizer::scan_block_comment`.  The produced comment is returned; the
Rust code appends it to the sink only when one is attached, which is modelled
at the sink-threading layer. -/
def scan_block_comment (ctx : Ctx) (st : TokenizerState) : TokenizerState × Option Comment :=
  match st.chars with
  | (start, '/') :: rest1 =>
    match rest1 with
    | (i2, '*') :: rest2 =>
      let content_start := i2 + 1
      let (content_end, stop, rest3) := scan_block_comment_go ctx.srcLen rest2
      ({ st with chars := rest3 },
        some (.block (slice_bytes ctx content_start content_end) ⟨start, stop⟩))
    | _ :: rest2 => ({ st with chars := rest2 }, none)
    | [] => ({ st with chars := [] }, none)
  | _ :: rest1 => ({ st with chars := rest1 }, none)
  | [] => (st, none)

/-- Loop of `Tokenizer::scan_line_comment`: scan to the line end (`\r\n`
consumed both, `\n` consumed, content and span stop before it) or to the end
of input. -/
def scan_line_comment_go (srcLen : Nat) : List (Nat × Char) → Nat × Nat × List (Nat × Char)
  | (i, '\r') :: (_, '\n') :: rest => (i, i, rest)
  | (i, '\n') :: rest => (i, i, rest)
  | _ :: b :: rest => scan_line_comment_go srcLen (b :: rest)
  | l => (srcLen, srcLen, l)

/-- `Tokenizer::scan_line_comment`. -/
def scan_line_comment (ctx : Ctx) (st : TokenizerState) : TokenizerState × Option Comment :=
  match st.chars with
  | (start, '/') :: rest1 =>
    match rest1 with
    | (i2, '/') :: rest2 =>
      let content_start := i2 + 1
      let (content_end, stop, rest3) := scan_line_comment_go ctx.srcLen rest2
      ({ st with chars := rest3 },
        some (.line (slice_bytes ctx content_start content_end) ⟨start, stop⟩))
    | _ :: rest2 => ({ st with chars := rest2 }, none)
    | [] => ({ st with chars := [] }, none)
  | _ :: rest1 => ({ st with chars := rest1 }, none)
  | [] => (st, none)

/-- Loop of `Tokenizer::skip_ws_or_comment`: scan comments and whitespace
before a token, collecting comments in order; in Sass syntax each whitespace
run goes through `scan_indent` and the latest result (including `none`)
overwrites `indent`.  One unit of fuel is spent per iteration and every
iteration that recurses consumes at least one character, so fuel
`chars.length + 1` never runs out. -/
def skip_ws_or_comment_go :
    Nat → Ctx → TokenizerState → Option Token → List Comment →
      Option Token × TokenizerState × List Comment
  | 0, _, st, indent, cmts => (indent, st, cmts)
  | fuel + 1, ctx, st, indent, cmts =>
    let ws_check : Option Token × TokenizerState × List Comment :=
      match peek_one_char st with
      | some (_, c) =>
        if is_ascii_whitespace c then
          if ctx.dialect = .sass then
            let (ind, st') := scan_indent ctx st
            skip_ws_or_comment_go fuel ctx st' ind cmts
          else
            skip_ws_or_comment_go fuel ctx (skip_ws st) indent cmts
        else (indent, st, cmts)
      | none => (indent, st, cmts)
    match peek_two_chars st with
    | some (_, a, b) =>
      if a = '/' && b = '*' then
        let (st', c?) := scan_block_comment ctx st
        skip_ws_or_comment_go fuel ctx st' indent (cmts ++ c?.toList)
      else if a = '/' && b = '/' && ctx.dialect ≠ .css then
        let (st', c?) := scan_line_comment ctx st
        skip_ws_or_comment_go fuel ctx st' indent (cmts ++ c?.toList)
      else ws_check
    | none => ws_check

/-- `Tokenizer::skip_ws_or_comment`. -/
def skip_ws_or_comment (ctx : Ctx) (st : TokenizerState) :
    Option Token × TokenizerState × List Comment :=
  skip_ws_or_comment_go (st.chars.length + 1) ctx st none []

/-- Hex loop of `Tokenizer::scan_escape`: after the first hex digit (whose
`end` candidate `i + 1` is passed in), consume up to five more hex digits,
then one optional whitespace (setting `end` past it), or set `end` to the
offset of the first non-matching character; at EOF `end` keeps its stale
initial value. -/
def scan_escape_hex_go : List (Nat × Char) → Nat → Nat → Nat × List (Nat × Char)
  | [], _, e => (e, [])
  | (i, c) :: rest, count, e =>
    if is_ascii_hexdigit c && count < 6 then scan_escape_hex_go rest (count + 1) e
    else if is_ascii_whitespace c then (i + 1, rest)
    else (i, (i, c) :: rest)

/-- `Tokenizer::scan_escape`: consume the backslash, then either a hex escape
(1–6 hex digits and an optional trailing whitespace) or a single escaped
character; returns the end offset of the escape. -/
def scan_escape (ctx : Ctx) (st : TokenizerState) : POut (Nat × TokenizerState) :=
  let st1 : TokenizerState := { st with chars := st.chars.tail }
  match st1.chars with
  | (i, c) :: rest =>
    if is_ascii_hexdigit c then
      let (e, rest') := scan_escape_hex_go rest 1 (i + 1)
      .ok (e, { st1 with chars := rest' })
    else .ok (i + c.utf8Size, { st1 with chars := rest })
  | [] => .err (build_eof_error ctx st1)

/-- Digit loop shared by the mantissa and exponent parts of
`Tokenizer::scan_number`: consume digits; on the first non-digit set `end` to
its offset; at EOF leave `end` unchanged (stale). -/
def scan_number_digits : List (Nat × Char) → Nat → Nat × List (Nat × Char)
  | [], e => (e, [])
  | (i, c) :: rest, e =>
    if is_ascii_digit c then scan_number_digits rest e else (i, (i, c) :: rest)

/-- Modelled from the spec: section 4.2 says the numeric value is the raw
slice parsed as an IEEE 754 double (`raw.parse::<f64>()`, standard library
code outside this repository).  The accepted shapes are
`[+-]? (digits ['.' digits*] | '.' digits+) ([eE] [+-]? digits+)?`, and the
value is modelled exactly as a rational (which agrees with the double for the
small integer-valued lexemes evaluated here); anything else is a parse
failure, which `scan_number` turns into `InvalidNumber`. -/
def parse_number_value (s : List Char) : Option ℚ :=
  let (sign, s1) : Int × List Char :=
    match s with
    | '+' :: r => (1, r)
    | '-' :: r => (-1, r)
    | _ => (1, s)
  let ip := s1.takeWhile is_ascii_digit
  let r1 := s1.dropWhile is_ascii_digit
  let (fp, r2) : List Char × List Char :=
    match r1 with
    | '.' :: r => (r.takeWhile is_ascii_digit, r.dropWhile is_ascii_digit)
    | _ => ([], r1)
  if ip.isEmpty && fp.isEmpty then none
  else
    let digits_to_nat : List Char → Nat :=
      fun ds => ds.foldl (fun a c => a * 10 + (c.toNat - '0'.toNat)) 0
    let m : Int := digits_to_nat (ip ++ fp)
    -- value = sign * m * 10 ^ (e - fp.length), assembled with `Rat.divInt`
    -- over integer arithmetic
    let cont : Int → Option ℚ := fun e =>
      let shift : Int := e - fp.length
      some (Rat.divInt (sign * m * 10 ^ (max shift 0).toNat) (10 ^ (max (-shift) 0).toNat))
    match r2 with
    | [] => cont 0
    | 'e' :: r3 | 'E' :: r3 =>
      let (esign, r4) : Int × List Char :=
        match r3 with
        | '+' :: r => (1, r)
        | '-' :: r => (-1, r)
        | _ => (1, r3)
      let ed := r4.takeWhile is_ascii_digit
      let r5 := r4.dropWhile is_ascii_digit
      if ed.isEmpty || !r5.isEmpty then none
      else cont (esign * (digits_to_nat ed : Int))
    | _ => none

/-- `Tokenizer::scan_number`.  Mirrors the Rust control flow: leading digit,
sign (with optional dot), or dot; digit runs whose `end` goes stale at EOF;
optional exponent; then `assert!(start < end)` — modelled as `panic` when it
fails — and the value parse. -/
def scan_number (ctx : Ctx) (st : TokenizerState) : POut (TNumber × TokenizerState) :=
  match st.chars with
  | [] => .err (build_eof_error ctx st)
  | (start, c) :: rest =>
    let finish : Nat → List (Nat × Char) → POut (TNumber × TokenizerState) :=
      fun e0 chars0 =>
        -- exponent part
        let (e1, chars1) :=
          match chars0 with
          | (_, a) :: (_, b) :: _ =>
            if (a = 'e' || a = 'E') && (b = '-' || b = '+' || is_ascii_digit b) then
              let chars' := chars0.tail
              let chars'' :=
                match chars' with
                | (_, '-') :: r => r
                | (_, '+') :: r => r
                | _ => chars'
              scan_number_digits chars'' e0
            else (e0, chars0)
          | _ => (e0, chars0)
        if start < e1 then
          let raw := slice_bytes ctx start e1
          match parse_number_value raw with
          | some v => .ok (⟨v, raw, ⟨start, e1⟩⟩, { st with chars := chars1 })
          | none => .err ⟨.invalidNumber, ⟨start, e1⟩⟩
        else .panic
    if is_ascii_digit c then
      -- integer part, optional fraction
      let (eA, charsA) := scan_number_digits rest (start + 1)
      match charsA with
      | (_, '.') :: restA =>
        let (eB, charsB) := scan_number_digits restA eA
        finish eB charsB
      | _ => finish eA charsA
    else if c = '+' || c = '-' then
      match rest with
      | (_, '.') :: rest2 =>
        let (eB, charsB) := scan_number_digits rest2 0
        finish eB charsB
      | _ =>
        let (eA, charsA) := scan_number_digits rest 0
        match charsA with
        | (_, '.') :: restA =>
          let (eB, charsB) := scan_number_digits restA eA
          finish eB charsB
        | _ => finish eA charsA
    else if c = '.' then
      let (eB, charsB) := scan_number_digits rest 0
      finish eB charsB
    else .err ⟨.invalidNumber, ⟨start, start + c.utf8Size⟩⟩

/-- Continue-loop of `Tokenizer::scan_ident_sequence`: consume ident-continue
characters; a `\` runs `scan_escape` with its resulting end offset discarded
(the Rust loop ignores `scan_escape`'s return value here); the first
non-matching character sets `end`; at EOF `end` keeps its previous value.
Fuel exceeds the remaining characters at every call site. -/
def scan_ident_loop : Nat → Ctx → TokenizerState → Nat → POut (Nat × TokenizerState)
  | 0, _, _, _ => .outOfFuel
  | fuel + 1, ctx, st, e =>
    match peek_one_char st with
    | some (i, c) =>
      if is_ascii_alphanumeric c || c = '-' || c = '_' || !char_is_ascii c then
        scan_ident_loop fuel ctx { st with chars := st.chars.tail } e
      else if c = '\\' then
        (scan_escape ctx st).bind fun p => scan_ident_loop fuel ctx p.2 e
      else .ok (i, st)
    | none => .ok (e, st)

/-- Shared tail of `Tokenizer::scan_ident_sequence` after the first character
has fixed `start` and an initial `end`: run the continue loop, then
`assert!(start < end)` (modelled as `panic` on failure), slice the raw text
and unescape it. -/
def scan_ident_finish (ctx : Ctx) (st : TokenizerState) (start e0 : Nat) :
    POut (TIdent × TokenizerState) :=
  (scan_ident_loop (st.chars.length + 1) ctx st e0).bind fun (e, st') =>
    if start < e then
      let raw := slice_bytes ctx start e
      match handle_escape raw with
      | .ok name => .ok (⟨name, raw, ⟨start, e⟩⟩, st')
      | .error k => .err ⟨k, ⟨start, e⟩⟩
    else .panic

/-- `Tokenizer::scan_ident_sequence`. -/
def scan_ident_sequence (ctx : Ctx) (st : TokenizerState) : POut (TIdent × TokenizerState) :=
  match peek_one_char st with
  | some (i, c) =>
    if c = '-' then
      let st1 : TokenizerState := { st with chars := st.chars.tail }
      match st1.chars with
      | (j, c2) :: rest => scan_ident_finish ctx { st1 with chars := rest } i (j + c2.utf8Size)
      | [] => .err (build_eof_error ctx st1)
    else if is_ascii_alphabetic c || c = '_' || !char_is_ascii c then
      scan_ident_finish ctx { st with chars := st.chars.tail } i (i + c.utf8Size)
    else if c = '\\' then
      (scan_escape ctx st).bind fun (e0, st1) => scan_ident_finish ctx st1 i e0
    else .err (build_eof_error ctx st)
  | none => .err (build_eof_error ctx st)

/-- `Tokenizer::scan_dimension`. -/
def scan_dimension (ctx : Ctx) (st : TokenizerState) (value : TNumber) :
    POut (Token × TokenizerState) :=
  (scan_ident_sequence ctx st).bind fun (unit, st') =>
    .ok (.dimension value unit ⟨value.span.start, unit.span.stop⟩, st')

/-- `Tokenizer::scan_percentage`. -/
def scan_percentage (ctx : Ctx) (st : TokenizerState) (value : TNumber) :
    POut (Token × TokenizerState) :=
  match st.chars with
  | [] => .err (build_eof_error ctx st)
  | (i, _) :: rest =>
    .ok (.percentage value ⟨value.span.start, i + 1⟩, { st with chars := rest })

/-- `Tokenizer::scan_dimension_or_percentage`. -/
def scan_dimension_or_percentage (ctx : Ctx) (st : TokenizerState) (number : TNumber) :
    POut (Token × TokenizerState) :=
  let two_dash :=
    match peek_two_chars st with
    | some (_, '-', c) => is_start_of_ident c
    | _ => false
  if two_dash then scan_dimension ctx st number
  else
    match peek_one_char st with
    | some (_, c) =>
      if is_start_of_ident c then scan_dimension ctx st number
      else if c = '%' then scan_percentage ctx st number
      else .ok (.number number, st)
    | none => .ok (.number number, st)

/-- `Tokenizer::is_start_of_interpolation_in_str_template`, evaluated on the
state after the `#` or `@` has been consumed. -/
def is_start_of_interpolation_in_str_template (ctx : Ctx) (st : TokenizerState) : Bool :=
  match ctx.dialect with
  | .css => false
  | .scss | .sass =>
    match peek_one_char st with
    | some (_, '{') => true
    | _ => false
  | .less =>
    match peek_two_chars st with
    | some (_, '{', c) => is_start_of_ident c
    | _ => false

/-- Loop of `Tokenizer::scan_string_or_template`: the template stack top is
pushed (Vec push/last/pop are modelled with the top of the list at the
head). -/
def scan_string_body : Nat → Ctx → TokenizerState → Nat → Char → POut (Token × TokenizerState)
  | 0, _, _, _, _ => .outOfFuel
  | fuel + 1, ctx, st, start, quote =>
    match st.chars with
    | [] => .err (build_eof_error ctx st)
    | (i, c) :: rest =>
      let st' : TokenizerState := { st with chars := rest }
      if c = '\n' then .err ⟨.unexpectedLinebreak, ⟨i, i + 1⟩⟩
      else if c = '\\' then
        (scan_escape ctx st').bind fun p => scan_string_body fuel ctx p.2 start quote
      else if c = quote then
        let e := i + c.utf8Size
        if start + 1 < e then
          let raw := slice_bytes ctx start e
          let value := slice_bytes ctx (start + 1) (e - 1)
          match handle_escape value with
          | .ok v => .ok (.str raw v ⟨start, e⟩, st')
          | .error k => .err ⟨k, ⟨start, e⟩⟩
        else .panic
      else if (c = '#' || c = '@') && is_start_of_interpolation_in_str_template ctx st' then
        let raw := slice_bytes ctx (start + 1) i
        match handle_escape raw with
        | .ok v =>
          .ok (.strTemplate raw v false ⟨start, i⟩,
            { st' with template := (.interpolation, quote) :: st'.template })
        | .error k => .err ⟨k, ⟨start, i⟩⟩
      else scan_string_body fuel ctx st' start quote

/-- `Tokenizer::scan_string_or_template`: the leading quote was checked (not
consumed) by the caller; `unwrap` on an empty stream is a panic. -/
def scan_string_or_template (ctx : Ctx) (st : TokenizerState) : POut (Token × TokenizerState) :=
  match st.chars with
  | (start, quote) :: rest =>
    scan_string_body (rest.length + 1) ctx { st with chars := rest } start quote
  | [] => .panic

/-- Loop of `Tokenizer::scan_string_template`. -/
def scan_string_template_body :
    Nat → Ctx → TokenizerState → Nat → Char → POut (Token × TokenizerState)
  | 0, _, _, _, _ => .outOfFuel
  | fuel + 1, ctx, st, start, quote =>
    match st.chars with
    | [] => .err (build_eof_error ctx st)
    | (i, c) :: rest =>
      let st' : TokenizerState := { st with chars := rest }
      if c = '\n' then .err ⟨.unexpectedLinebreak, ⟨i, i + 1⟩⟩
      else if c = '\\' then
        (scan_escape ctx st').bind fun p => scan_string_template_body fuel ctx p.2 start quote
      else if c = quote then
        let e := i + c.utf8Size
        let raw := slice_bytes ctx start i
        match handle_escape raw with
        | .ok v =>
          .ok (.strTemplate raw v true ⟨start, e⟩, { st' with template := st'.template.tail })
        | .error k => .err ⟨k, ⟨start, e⟩⟩
      else if (c = '#' || c = '@') && is_start_of_interpolation_in_str_template ctx st' then
        let raw := slice_bytes ctx start i
        let template' :=
          match st'.template with
          | (_, q) :: ts => (TemplateState.interpolation, q) :: ts
          | [] => []
        match handle_escape raw with
        | .ok v => .ok (.strTemplate raw v false ⟨start, i⟩, { st' with template := template' })
        | .error k => .err ⟨k, ⟨start, i⟩⟩
      else scan_string_template_body fuel ctx st' start quote

/-- `Tokenizer::scan_string_template`: resumes a string template whose stack
frame is `Static`; `expect` on an empty template stack is a panic. -/
def scan_string_template (ctx : Ctx) (st : TokenizerState) : POut (Token × TokenizerState) :=
  let start := current_offset ctx st
  match st.template with
  | [] => .panic
  | (_, quote) :: _ => scan_string_template_body (st.chars.length + 1) ctx st start quote

/-- `Tokenizer::is_start_of_interpolation_in_url_template`, evaluated on the
state after the `#` has been consumed. -/
def is_start_of_interpolation_in_url_template (ctx : Ctx) (st : TokenizerState) : Bool :=
  match ctx.dialect with
  | .css | .less => false
  | .scss | .sass =>
    match peek_one_char st with
    | some (_, '{') => true
    | _ => false

/-- Loop of `Tokenizer::scan_url_raw_or_template`. -/
def scan_url_raw_body : Nat → Ctx → TokenizerState → Nat → POut (Token × TokenizerState)
  | 0, _, _, _ => .outOfFuel
  | fuel + 1, ctx, st, start =>
    match st.chars with
    | [] => .err (build_eof_error ctx st)
    | (i, c) :: rest =>
      let st' : TokenizerState := { st with chars := rest }
      if c = '\n' then .err ⟨.unexpectedLinebreak, ⟨i, i + 1⟩⟩
      else if c = '\\' then
        (scan_escape ctx st').bind fun p => scan_url_raw_body fuel ctx p.2 start
      else if c = ')' then
        let raw := slice_bytes ctx start i
        match handle_escape raw with
        | .ok v => .ok (.urlRaw raw v ⟨start, i⟩, { st' with url := .none })
        | .error k => .err ⟨k, ⟨start, i⟩⟩
      else if c = '#' && is_start_of_interpolation_in_url_template ctx st' then
        let raw := slice_bytes ctx start i
        match handle_escape raw with
        | .ok v =>
          .ok (.urlTemplate raw v false ⟨start, i⟩,
            { st' with url := .template,
                       template := (.interpolation, ')') :: st'.template })
        | .error k => .err ⟨k, ⟨start, i⟩⟩
      else scan_url_raw_body fuel ctx st' start

/-- `Tokenizer::scan_url_raw_or_template`. -/
def scan_url_raw_or_template (ctx : Ctx) (st : TokenizerState) : POut (Token × TokenizerState) :=
  scan_url_raw_body (st.chars.length + 1) ctx st (current_offset ctx st)

/-- Loop of `Tokenizer::scan_url_template`. -/
def scan_url_template_body : Nat → Ctx → TokenizerState → Nat → POut (Token × TokenizerState)
  | 0, _, _, _ => .outOfFuel
  | fuel + 1, ctx, st, start =>
    match st.chars with
    | [] => .err (build_eof_error ctx st)
    | (i, c) :: rest =>
      let st' : TokenizerState := { st with chars := rest }
      if c = '\n' then .err ⟨.unexpectedLinebreak, ⟨i, i + 1⟩⟩
      else if c = '\\' then
        (scan_escape ctx st').bind fun p => scan_url_template_body fuel ctx p.2 start
      else if c = ')' then
        let raw := slice_bytes ctx start i
        match handle_escape raw with
        | .ok v =>
          .ok (.urlTemplate raw v true ⟨start, i⟩,
            { st' with template := st'.template.tail, url := .none })
        | .error k => .err ⟨k, ⟨start, i⟩⟩
      else if c = '#' && is_start_of_interpolation_in_url_template ctx st' then
        let raw := slice_bytes ctx start i
        let template' :=
          match st'.template with
          | (_, q) :: ts => (TemplateState.interpolation, q) :: ts
          | [] => []
        match handle_escape raw with
        | .ok v => .ok (.urlTemplate raw v false ⟨start, i⟩, { st' with template := template' })
        | .error k => .err ⟨k, ⟨start, i⟩⟩
      else scan_url_template_body fuel ctx st' start

/-- `Tokenizer::scan_url_template`. -/
def scan_url_template (ctx : Ctx) (st : TokenizerState) : POut (Token × TokenizerState) :=
  scan_url_template_body (st.chars.length + 1) ctx st (current_offset ctx st)

/-- `Tokenizer::scan_url`: consume the `(`, skip whitespace, set
`url = Ambiguous`. -/
def scan_url (ctx : Ctx) (st : TokenizerState) (id : TIdent) : POut (Token × TokenizerState) :=
  match st.chars with
  | [] => .err (build_eof_error ctx st)
  | (i, _) :: rest =>
    let st1 := skip_ws { st with chars := rest }
    .ok (.urlPrefix id ⟨id.span.start, i + 1⟩, { st1 with url := .ambiguous })

/-- `Tokenizer::scan_ident_or_url`. -/
def scan_ident_or_url (ctx : Ctx) (st : TokenizerState) : POut (Token × TokenizerState) :=
  (scan_ident_sequence ctx st).bind fun (id, st') =>
    match peek_one_char st' with
    | some (_, '(') =>
      if eq_ignore_ascii_case id.name ['u', 'r', 'l'] then scan_url ctx st' id
      else .ok (.ident id, st')
    | _ => .ok (.ident id, st')

/-- Continue-loop of `Tokenizer::scan_hash` (note `\` is consumed directly
here, without running the escape scanner). -/
def scan_hash_loop : List (Nat × Char) → Nat → Nat × List (Nat × Char)
  | [], e => (e, [])
  | (i, c) :: rest, e =>
    if is_ascii_alphanumeric c || c = '-' || c = '_' || !char_is_ascii c || c = '\\' then
      scan_hash_loop rest e
    else (i, (i, c) :: rest)

/-- `Tokenizer::scan_hash`: `#` followed by at least one name character;
`assert!(end > start + 1)` is modelled as `panic` on failure. -/
def scan_hash (ctx : Ctx) (st : TokenizerState) : POut (Token × TokenizerState) :=
  match st.chars with
  | [] => .err (build_eof_error ctx st)
  | (start, c) :: rest =>
    match rest with
    | [] => .err (build_eof_error ctx { st with chars := rest })
    | (i, c2) :: rest2 =>
      if is_ascii_alphanumeric c2 || c2 = '-' || c2 = '_' || !char_is_ascii c2 || c2 = '\\' then
        let (e, rest3) := scan_hash_loop rest2 (i + c2.utf8Size)
        if e > start + 1 then
          let raw := slice_bytes ctx start e
          let value := slice_bytes ctx (start + 1) e
          match handle_escape value with
          | .ok v => .ok (.hash v raw value ⟨start, e⟩, { st with chars := rest3 })
          | .error k => .err ⟨k, ⟨start, e⟩⟩
        else .panic
      else .err ⟨.invalidHash, ⟨i, i + c.utf8Size⟩⟩

/-- `Tokenizer::scan_dollar_var`. -/
def scan_dollar_var (ctx : Ctx) (st : TokenizerState) : POut (Token × TokenizerState) :=
  match st.chars with
  | [] => .err (build_eof_error ctx st)
  | (start, _) :: rest =>
    (scan_ident_sequence ctx { st with chars := rest }).bind fun (id, st') =>
      .ok (.dollarVar id ⟨start, id.span.stop⟩, st')

/-- `Tokenizer::scan_at_lbrace_var` (Less `@{name}`). -/
def scan_at_lbrace_var (ctx : Ctx) (st : TokenizerState) : POut (Token × TokenizerState) :=
  match st.chars with
  | [] => .err (build_eof_error ctx st)
  | (start, _) :: rest1 =>
    match rest1 with
    | [] => .err (build_eof_error ctx { st with chars := rest1 })
    | _ :: rest2 =>
      (scan_ident_sequence ctx { st with chars := rest2 }).bind fun (id, st') =>
        match st'.chars with
        | (i, '}') :: rest3 =>
          .ok (.atLBraceVar id ⟨start, i + 1⟩, { st' with chars := rest3 })
        | (i, c) :: _ => .err ⟨.expectRightBraceForLessVar, ⟨i, i + c.utf8Size⟩⟩
        | [] => .err (build_eof_error ctx st')

/-- `Tokenizer::scan_at_keyword`. -/
def scan_at_keyword (ctx : Ctx) (st : TokenizerState) : POut (Token × TokenizerState) :=
  match st.chars with
  | [] => .err (build_eof_error ctx st)
  | (start, _) :: rest =>
    (scan_ident_sequence ctx { st with chars := rest }).bind fun (id, st') =>
      .ok (.atKeyword id ⟨start, id.span.stop⟩, st')

/-- One-character arms of `Tokenizer::scan_punc`: the character is consumed;
`}` flips the top template frame (whatever its phase) to `Static`; an
unlisted character yields `None` (the caller reports `UnknownToken`). -/
def scan_punc_one (st : TokenizerState) : Option (Token × TokenizerState) :=
  match st.chars with
  | [] => none
  | (i, c) :: rest =>
    let st' : TokenizerState := { st with chars := rest }
    let span : Span := ⟨i, i + 1⟩
    match c with
    | ':' => some (.colon span, st')
    | '(' => some (.lParen span, st')
    | ')' => some (.rParen span, st')
    | '[' => some (.lBracket span, st')
    | ']' => some (.rBracket span, st')
    | '{' => some (.lBrace span, st')
    | '}' =>
      let template' :=
        match st'.template with
        | (_, q) :: ts => (TemplateState.static, q) :: ts
        | [] => []
      some (.rBrace span, { st' with template := template' })
    | '/' => some (.solidus span, st')
    | ',' => some (.comma span, st')
    | ';' => some (.semicolon span, st')
    | '.' => some (.dot span, st')
    | '>' => some (.greaterThan span, st')
    | '<' => some (.lessThan span, st')
    | '+' => some (.plus span, st')
    | '-' => some (.minus span, st')
    | '~' => some (.tilde span, st')
    | '&' => some (.ampersand span, st')
    | '*' => some (.asterisk span, st')
    | '|' => some (.bar span, st')
    | '=' => some (.equal span, st')
    | '%' => some (.percent span, st')
    | '#' => some (.numberSign span, st')
    | _ => none

/-- `Tokenizer::scan_punc`. -/
def scan_punc (ctx : Ctx) (st : TokenizerState) : Option (Token × TokenizerState) :=
  match peek_two_chars st with
  | some (i, a, b) =>
    let st2 : TokenizerState := { st with chars := st.chars.tail.tail }
    let span : Span := ⟨i, i + 2⟩
    if a = ':' && b = ':' then some (.colonColon span, st2)
    else if a = '|' && b = '|' then some (.barBar span, st2)
    else if a = '~' && b = '=' then some (.tildeEqual span, st2)
    else if a = '|' && b = '=' then some (.barEqual span, st2)
    else if a = '^' && b = '=' then some (.caretEqual span, st2)
    else if a = '$' && b = '=' then some (.dollarEqual span, st2)
    else if a = '*' && b = '=' then some (.asteriskEqual span, st2)
    else if a = '#' && b = '{' && (ctx.dialect = .scss || ctx.dialect = .sass) then
      some (.hashLBrace span, st2)
    else if a = '=' && b = '=' && (ctx.dialect = .scss || ctx.dialect = .sass) then
      some (.equalEqual span, st2)
    else if a = '!' && b = '=' && (ctx.dialect = .scss || ctx.dialect = .sass) then
      some (.exclamationEqual span, st2)
    else if a = '>' && b = '=' then some (.greaterThanEqual span, st2)
    else if a = '<' && b = '=' then some (.lessThanEqual span, st2)
    else if a = '+' && b = '_' && ctx.dialect = .less then some (.plusUnderscore span, st2)
    else scan_punc_one st
  | none => scan_punc_one st

/-- `Tokenizer::bump`: the main token dispatcher.  Returns the token, the new
state, and the comments collected while skipping whitespace (appended to the
caller's sink when one is attached). -/
def bump (ctx : Ctx) (st : TokenizerState) : POut (Token × TokenizerState × List Comment) :=
  match st.template with
  | (.static, _) :: _ =>
    (if st.url = .template then scan_url_template ctx st
     else scan_string_template ctx st).bind fun (t, st') => .ok (t, st', [])
  | _ =>
    if st.url = .ambiguous then
      (scan_url_raw_or_template ctx st).bind fun (t, st') => .ok (t, st', [])
    else
      let (ind, st1, cmts) := skip_ws_or_comment ctx st
      match ind with
      | some tok => .ok (tok, st1, cmts)
      | none =>
        let with_cmts : POut (Token × TokenizerState) → POut (Token × TokenizerState × List Comment) :=
          fun r => r.bind fun (t, st') => .ok (t, st', cmts)
        let number_path : POut (Token × TokenizerState × List Comment) :=
          with_cmts ((scan_number ctx st1).bind fun (n, st2) =>
            scan_dimension_or_percentage ctx st2 n)
        let fallback_one : POut (Token × TokenizerState × List Comment) :=
          match peek_one_char st1 with
          | some (i, c) =>
            if is_ascii_digit c then number_path
            else if is_start_of_ident c then with_cmts (scan_ident_or_url ctx st1)
            else
              match scan_punc ctx st1 with
              | some (t, st2) => .ok (t, st2, cmts)
              | none => .err ⟨.unknownToken, ⟨i, i + c.utf8Size⟩⟩
          | none =>
            let offset := current_offset ctx st1
            .ok (.eof ⟨offset, offset⟩, st1, cmts)
        match peek_two_chars st1 with
        | some (_, a, b) =>
          if a = '\'' || a = '"' then with_cmts (scan_string_or_template ctx st1)
          else if (a = '-' || a = '+') && (is_ascii_digit b || b = '.') then number_path
          else if a = '-' && is_start_of_ident b then with_cmts (scan_ident_or_url ctx st1)
          else if a = '.' && is_ascii_digit b then number_path
          else if a = '#' &&
              (is_ascii_alphanumeric b || b = '-' || b = '_' || !char_is_ascii b || b = '\\') then
            with_cmts (scan_hash ctx st1)
          else if a = '@' && is_start_of_ident b then with_cmts (scan_at_keyword ctx st1)
          else if a = '$' && (ctx.dialect = .scss || ctx.dialect = .sass) &&
              is_start_of_ident b then
            with_cmts (scan_dollar_var ctx st1)
          else if a = '@' && b = '{' && ctx.dialect = .less then
            with_cmts (scan_at_lbrace_var ctx st1)
          else fallback_one
        | none => fallback_one

/-- `Tokenizer::peek`: clone the state, detach the comments sink, `bump`,
restore.  In the pure embedding this is the token component of `bump`; the
comments the probe would have recorded are dropped. -/
def peek (ctx : Ctx) (st : TokenizerState) : POut Token :=
  match bump ctx st with
  | .ok (t, _, _) => .ok t
  | .err e => .err e
  | .panic => .panic
  | .outOfFuel => .outOfFuel

/-- Run `bump` repeatedly until an `Eof` token (included in the result),
collecting tokens and comments in source order. -/
def tokens_until_eof : Nat → Ctx → TokenizerState → POut (List Token × TokenizerState × List Comment)
  | 0, _, _ => .outOfFuel
  | fuel + 1, ctx, st =>
    (bump ctx st).bind fun (t, st', cs) =>
      match t with
      | .eof _ => .ok ([t], st', cs)
      | _ =>
        (tokens_until_eof fuel ctx st').bind fun (ts, st'', cs') =>
          .ok (t :: ts, st'', cs ++ cs')

/-- Modelled from the spec: the `expect!`/`eat!` macros and
`Parser::assert_no_ws_or_comment` live in `parser/mod.rs`, which is not among
the given sources.  Parser-side `bump` discarding the collected comments (the
parser forwards them to its own sink, which no selector production reads). -/
def pbump (ctx : Ctx) (st : TokenizerState) : POut (Token × TokenizerState) :=
  (bump ctx st).bind fun (t, st', _) => .ok (t, st')

/-- Modelled from the spec: `expect!(input, Variant)` bumps one token and
fails with the structural `Unexpected` error (spec section 7) carrying the
got token's span when it is not the expected variant.  `f` extracts the
expected variant's payload. -/
def p_expect {α : Type} (ctx : Ctx) (st : TokenizerState) (f : Token → Option α) :
    POut (α × TokenizerState) :=
  (pbump ctx st).bind fun (t, st') =>
    match f t with
    | some a => .ok (a, st')
    | none => .err ⟨.unexpected, t.span⟩

/-- Modelled from the spec: `eat!(input, Variant)` peeks and consumes the
token only when it matches. -/
def p_eat {α : Type} (ctx : Ctx) (st : TokenizerState) (f : Token → Option α) :
    POut (Option α × TokenizerState) :=
  (peek ctx st).bind fun t =>
    match f t with
    | some a => (pbump ctx st).bind fun p => .ok (some a, p.2)
    | none => .ok (none, st)

/-- Modelled from the spec (section 4.4):
`assert_no_ws_or_comment(prev_span, next_span)` succeeds when
`prev_span.end == next_span.start`, else fails with `ExpectNoWsOrComment`
(spanning the gap). -/
def assert_no_ws_or_comment (prev next : Span) : POut Unit :=
  if prev.stop = next.start then .ok () else .err ⟨.expectNoWsOrComment, ⟨prev.stop, next.start⟩⟩

/-- Modelled from the spec: `convert.rs` (not among the given sources)
implements `TryFrom<Number> for i32`; spec section 4.3 says overflow or a
non-integer value fails with `ExpectInteger`. -/
def rat_to_i32 (q : ℚ) (span : Span) : POut Int :=
  if q.den = 1 ∧ -(2 ^ 31) ≤ q.num ∧ q.num < 2 ^ 31 then .ok q.num
  else .err ⟨.expectInteger, span⟩

/-- `i32::try_from(number)` / `number.try_into()` on a number token. -/
def number_to_i32 (n : TNumber) : POut Int :=
  rat_to_i32 n.value n.span

/-- `digits.parse::<i32>()` on an all-digit slice: fails (on the empty slice
or on overflow) with `ExpectInteger` at the span the caller supplies. -/
def parse_i32_digits (ds : List Char) : Option Int :=
  if ds.isEmpty then none
  else
    let v := ds.foldl (fun a c => a * 10 + (c.toNat - '0'.toNat)) 0
    if v < 2 ^ 31 then some (v : Int) else none

/-- Element of a Sass-interpolated ident (`SassInterpolatedIdentElement`):
a static part or a dynamic expression (not modelled further). -/
inductive SassInterpolatedIdentElement where
  | static (value raw : List Char) (span : Span)
  | expr (span : Span)
deriving DecidableEq, Repr

/-- `InterpolableIdent` (spec section 3); the Less form carries no payload
needed here. -/
inductive InterpolableIdent where
  | literal (id : TIdent)
  | sassInterpolated (elements : List SassInterpolatedIdentElement) (span : Span)
  | lessInterpolated (span : Span)
deriving DecidableEq, Repr

/-- `Spanned::span` for `InterpolableIdent`. -/
def InterpolableIdent.span : InterpolableIdent → Span
  | .literal id => id.span
  | .sassInterpolated _ s => s
  | .lessInterpolated s => s

/-- Modelled from the spec: `InterpolableIdent` parsing lives in
`parser/mod.rs`, which is not among the given sources.  Spec section 3 gives
`InterpolableIdent ∈ {Literal(Ident), SassInterpolated(...), LessInterpolated(...)}`;
on the plain-CSS inputs this development evaluates, an interpolable ident is
exactly one `Ident` token wrapped as `Literal`, which is what is modelled
here; the SCSS/Less interpolated forms are not modelled and any other next
token yields the structural `Unexpected` error. -/
def InterpolableIdent_parse (ctx : Ctx) (st : TokenizerState) :
    POut (InterpolableIdent × TokenizerState) :=
  p_expect ctx st fun t =>
    match t with
    | .ident id => some (InterpolableIdent.literal id)
    | _ => none

/-- `InterpolableStr` restricted to its literal form. -/
inductive InterpolableStr where
  | literal (raw value : List Char) (span : Span)
deriving DecidableEq, Repr

/-- `Spanned::span` for `InterpolableStr`. -/
def InterpolableStr.span : InterpolableStr → Span
  | .literal _ _ s => s

/-- Modelled from the spec: `InterpolableStr` parsing lives outside the given
sources; a literal string is one `Str` token, the templated forms are not
modelled. -/
def InterpolableStr_parse (ctx : Ctx) (st : TokenizerState) :
    POut (InterpolableStr × TokenizerState) :=
  p_expect ctx st fun t =>
    match t with
    | .str raw value s => some (InterpolableStr.literal raw value s)
    | _ => none

/-- `NsPrefixKind`: an ident prefix or the universal `*` prefix. -/
inductive NsPrefixKind where
  | ident (id : InterpolableIdent)
  | universal (span : Span)
deriving DecidableEq, Repr

/-- `NsPrefix { kind, span }` (`kind = None` encodes the bare `|name`
form). -/
structure NsPrefix where
  kind : Option NsPrefixKind
  span : Span
deriving DecidableEq, Repr

/-- `WqName { name, prefix, span }` (the Rust field `prefix` is spelled `pre`
here to keep clear of Lean notation keywords). -/
structure WqName where
  name : InterpolableIdent
  pre : Option NsPrefix
  span : Span
deriving DecidableEq, Repr

/-- `TypeSelector`: a tag name or the universal selector. -/
inductive TypeSelector where
  | tagName (name : WqName) (span : Span)
  | universal (pre : Option NsPrefix) (span : Span)
deriving DecidableEq, Repr

/-- `Spanned::span` for `TypeSelector`. -/
def TypeSelector.span : TypeSelector → Span
  | .tagName _ s => s
  | .universal _ s => s

/-- `ClassSelector { name, span }`. -/
structure ClassSelector where
  name : InterpolableIdent
  span : Span
deriving DecidableEq, Repr

/-- `IdSelector { name, span }`. -/
structure IdSelector where
  name : InterpolableIdent
  span : Span
deriving DecidableEq, Repr

/-- `NestingSelector { span }` (`&`). -/
structure NestingSelector where
  span : Span
deriving DecidableEq, Repr

/-- `SassPlaceholderSelector { name, span }` (`%name`, SCSS/Sass only; its
parser is outside the given sources). -/
structure SassPlaceholderSelector where
  name : InterpolableIdent
  span : Span
deriving DecidableEq, Repr

/-- `AttributeSelectorMatcherKind`. -/
inductive AttributeSelectorMatcherKind where
  | equals
  | tilde
  | bar
  | caret
  | dollar
  | asterisk
deriving DecidableEq, Repr

/-- `AttributeSelectorMatcher { kind, span }`. -/
structure AttributeSelectorMatcher where
  kind : AttributeSelectorMatcherKind
  span : Span
deriving DecidableEq, Repr

/-- `AttributeSelectorValue`. -/
inductive AttributeSelectorValue where
  | ident (id : InterpolableIdent)
  | str (s : InterpolableStr)
deriving DecidableEq, Repr

/-- `AttributeSelectorModifier { ident, span }`. -/
structure AttributeSelectorModifier where
  ident : InterpolableIdent
  span : Span
deriving DecidableEq, Repr

/-- `AttributeSelector`. -/
structure AttributeSelector where
  name : WqName
  matcher : Option AttributeSelectorMatcher
  value : Option AttributeSelectorValue
  modifier : Option AttributeSelectorModifier
  span : Span
deriving DecidableEq, Repr

/-- `CombinatorKind`. -/
inductive CombinatorKind where
  | descendant
  | child
  | nextSibling
  | laterSibling
  | column
deriving DecidableEq, Repr

/-- `Combinator { kind, span }`. -/
structure Combinator where
  kind : CombinatorKind
  span : Span
deriving DecidableEq, Repr

/-- `AnPlusB { a, b, span }` (`a`, `b` are Rust `i32`; the conversions bound
them, so `Int` is faithful). -/
structure AnPlusB where
  a : Int
  b : Int
  span : Span
deriving DecidableEq, Repr

/-- `Nth`: `odd` / `even` / an integer / an `An+B` expression. -/
inductive Nth where
  | odd (id : TIdent)
  | even (id : TIdent)
  | integer (n : TNumber)
  | anPlusB (x : AnPlusB)
deriving DecidableEq, Repr

/-- `LanguageRange`. -/
inductive LanguageRange where
  | str (s : InterpolableStr)
  | ident (id : InterpolableIdent)
deriving DecidableEq, Repr

/-- `Spanned::span` for `LanguageRange`. -/
def LanguageRange.span : LanguageRange → Span
  | .str s => s.span
  | .ident id => id.span

/-- `LanguageRangeList { ranges, span }`. -/
structure LanguageRangeList where
  ranges : List LanguageRange
  span : Span
deriving DecidableEq, Repr

mutual
/-- `SimpleSelector` (the Rust variants `Class` and `Type` are Lean keywords
and are spelled `cls` and `typ`). -/
inductive SimpleSelector where
  | cls (c : ClassSelector)
  | id (i : IdSelector)
  | typ (t : TypeSelector)
  | attribute (a : AttributeSelector)
  | pseudoClass (p : PseudoClassSelector)
  | pseudoElement (p : PseudoElementSelector)
  | nesting (n : NestingSelector)
  | sassPlaceholder (s : SassPlaceholderSelector)

/-- `CompoundSelector { children, span }`. -/
inductive CompoundSelector where
  | mk (children : List SimpleSelector) (span : Span)

/-- `ComplexSelectorChild`. -/
inductive ComplexSelectorChild where
  | compoundSelector (c : CompoundSelector)
  | combinator (c : Combinator)

/-- `ComplexSelector { children, span }`. -/
inductive ComplexSelector where
  | mk (children : List ComplexSelectorChild) (span : Span)

/-- `SelectorList { selectors, span }`. -/
inductive SelectorList where
  | mk (selectors : List ComplexSelector) (span : Span)

/-- `CompoundSelectorList { selectors, span }`. -/
inductive CompoundSelectorList where
  | mk (selectors : List CompoundSelector) (span : Span)

/-- `RelativeSelector { combinator, complex_selector, span }`. -/
inductive RelativeSelector where
  | mk (combinator : Option Combinator) (complex_selector : ComplexSelector) (span : Span)

/-- `RelativeSelectorList { selectors, span }`. -/
inductive RelativeSelectorList where
  | mk (selectors : List RelativeSelector) (span : Span)

/-- `PseudoClassSelectorArg`, dispatched by pseudo-class name. -/
inductive PseudoClassSelectorArg where
  | nth (n : Nth)
  | selectorList (l : SelectorList)
  | relativeSelectorList (l : RelativeSelectorList)
  | ident (id : InterpolableIdent)
  | languageRangeList (l : LanguageRangeList)
  | compoundSelectorList (l : CompoundSelectorList)
  | compoundSelector (c : CompoundSelector)

/-- `PseudoClassSelector { name, arg, span }`. -/
inductive PseudoClassSelector where
  | mk (name : InterpolableIdent) (arg : Option PseudoClassSelectorArg) (span : Span)

/-- `PseudoElementSelectorArg`. -/
inductive PseudoElementSelectorArg where
  | ident (id : InterpolableIdent)
  | compoundSelector (c : CompoundSelector)

/-- `PseudoElementSelector { name, arg, span }`. -/
inductive PseudoElementSelector where
  | mk (name : InterpolableIdent) (arg : Option PseudoElementSelectorArg) (span : Span)
end

/-- `Spanned::span` for `PseudoClassSelector`. -/
def PseudoClassSelector.span : PseudoClassSelector → Span
  | .mk _ _ s => s

/-- `Spanned::span` for `PseudoElementSelector`. -/
def PseudoElementSelector.span : PseudoElementSelector → Span
  | .mk _ _ s => s

/-- `Spanned::span` for `SimpleSelector`. -/
def SimpleSelector.span : SimpleSelector → Span
  | .cls c => c.span
  | .id i => i.span
  | .typ t => t.span
  | .attribute a => a.span
  | .pseudoClass p => p.span
  | .pseudoElement p => p.span
  | .nesting n => n.span
  | .sassPlaceholder s => s.span

/-- `CompoundSelector` field accessors. -/
def CompoundSelector.span : CompoundSelector → Span
  | .mk _ s => s

/-- Children of a `CompoundSelector`. -/
def CompoundSelector.children : CompoundSelector → List SimpleSelector
  | .mk cs _ => cs

/-- `Spanned::span` for `Combinator`-or-compound children. -/
def ComplexSelectorChild.span : ComplexSelectorChild → Span
  | .compoundSelector c => c.span
  | .combinator c => c.span

/-- `ComplexSelector` span accessor. -/
def ComplexSelector.span : ComplexSelector → Span
  | .mk _ s => s

/-- `RelativeSelector` span accessor. -/
def RelativeSelector.span : RelativeSelector → Span
  | .mk _ _ s => s

/-- `fn expect_unsigned_int` (selector.rs): a `Number` token whose raw slice
is all ASCII digits. -/
def expect_unsigned_int (ctx : Ctx) (st : TokenizerState) : POut (TNumber × TokenizerState) :=
  (p_expect ctx st fun t => match t with | .number n => some n | _ => none).bind
    fun (number, st') =>
      if number.raw.any (fun c => !is_ascii_digit c) then
        .err ⟨.expectUnsignedInteger, number.span⟩
      else .ok (number, st')

/-- `impl Parse for AnPlusB` (selector.rs): the seven lexical shapes of the
`An+B` grammar, dispatched on a `Dimension`, `+`, or `Ident` token. -/
def AnPlusB_parse (ctx : Ctx) (st : TokenizerState) : POut (AnPlusB × TokenizerState) :=
  (peek ctx st).bind fun tok =>
    match tok with
    | .dimension value unit dspan =>
      (pbump ctx st).bind fun (_, st1) =>
        if eq_ignore_ascii_case unit.name ['n'] then
          (peek ctx st1).bind fun tok2 =>
            match tok2 with
            -- syntax: <n-dimension> ['+' | '-'] <signless-integer>
            | .plus _ | .minus _ =>
              (pbump ctx st1).bind fun (_, st2) =>
                (expect_unsigned_int ctx st2).bind fun (number, st3) =>
                  let span : Span := ⟨dspan.start, number.span.stop⟩
                  (rat_to_i32 value.value value.span).bind fun a =>
                    (number_to_i32 number).bind fun b =>
                      .ok (⟨a, (match tok2 with | .plus _ => 1 | _ => -1) * b, span⟩, st3)
            -- syntax: <n-dimension> <signed-integer>
            | .number number =>
              (pbump ctx st1).bind fun (_, st2) =>
                let span : Span := ⟨dspan.start, number.span.stop⟩
                (rat_to_i32 value.value value.span).bind fun a =>
                  (number_to_i32 number).bind fun b =>
                    .ok (⟨a, b, span⟩, st2)
            -- syntax: <n-dimension>
            | _ =>
              (rat_to_i32 value.value value.span).bind fun a =>
                .ok (⟨a, 0, dspan⟩, st1)
        else if eq_ignore_ascii_case unit.name ['n', '-'] then
          -- syntax: <ndash-dimension> <signless-integer>
          (expect_unsigned_int ctx st1).bind fun (number, st2) =>
            let span : Span := ⟨dspan.start, number.span.stop⟩
            (rat_to_i32 value.value value.span).bind fun a =>
              (number_to_i32 number).bind fun b =>
                .ok (⟨a, -b, span⟩, st2)
        else
          match strip_pre ['n', '-'] unit.name with
          | some digits =>
            -- syntax: <ndashdigit-dimension>
            if digits.any (fun c => !is_ascii_digit c) then
              .err ⟨.expectUnsignedInteger, ⟨unit.span.start + 2, unit.span.stop⟩⟩
            else
              match parse_i32_digits digits with
              | some b =>
                (rat_to_i32 value.value value.span).bind fun a => .ok (⟨a, -b, dspan⟩, st1)
              | none => .err ⟨.expectInteger, ⟨unit.span.start + 2, unit.span.stop⟩⟩
          | none => .err ⟨.invalidAnPlusB, dspan⟩
    | .plus pspan =>
      (pbump ctx st).bind fun (_, st1) =>
        (p_expect ctx st1 fun t => match t with | .ident id => some id | _ => none).bind
          fun (ident, st2) =>
        (assert_no_ws_or_comment pspan ident.span).bind fun _ =>
        if eq_ignore_ascii_case ident.name ['n'] then
          (peek ctx st2).bind fun tok2 =>
            match tok2 with
            -- syntax: +n ['+' | '-'] <signless-integer>
            | .plus _ | .minus _ =>
              (pbump ctx st2).bind fun (_, st3) =>
                (expect_unsigned_int ctx st3).bind fun (number, st4) =>
                  let span : Span := ⟨pspan.start, number.span.stop⟩
                  (number_to_i32 number).bind fun b =>
                    .ok (⟨1, (match tok2 with | .plus _ => 1 | _ => -1) * b, span⟩, st4)
            -- syntax: +n <signed-integer>
            | .number number =>
              (pbump ctx st2).bind fun (_, st3) =>
                let span : Span := ⟨pspan.start, number.span.stop⟩
                (number_to_i32 number).bind fun b => .ok (⟨1, b, span⟩, st3)
            -- syntax: +n
            | _ => .ok (⟨1, 0, ⟨pspan.start, ident.span.stop⟩⟩, st2)
        else if eq_ignore_ascii_case ident.name ['n', '-'] then
          -- syntax: +n- <signless-integer>
          (expect_unsigned_int ctx st2).bind fun (number, st3) =>
            let span : Span := ⟨pspan.start, number.span.stop⟩
            (number_to_i32 number).bind fun b => .ok (⟨1, -b, span⟩, st3)
        else
          match strip_pre ['n', '-'] ident.name with
          | some digits =>
            -- syntax: +<ndashdigit-ident>
            if digits.any (fun c => !is_ascii_digit c) then
              .err ⟨.expectUnsignedInteger, ⟨ident.span.start + 2, ident.span.stop⟩⟩
            else
              match parse_i32_digits digits with
              | some b => .ok (⟨1, -b, ⟨pspan.start, ident.span.stop⟩⟩, st2)
              | none => .err ⟨.expectInteger, ⟨ident.span.start + 2, ident.span.stop⟩⟩
          | none => .err ⟨.invalidAnPlusB, ⟨pspan.start, ident.span.stop⟩⟩
    | .ident ident =>
      (pbump ctx st).bind fun (_, st1) =>
        if eq_ignore_ascii_case ident.name ['n'] then
          (peek ctx st1).bind fun tok2 =>
            match tok2 with
            -- syntax: n ['+' | '-'] <signless-integer>
            | .plus _ | .minus _ =>
              (pbump ctx st1).bind fun (_, st2) =>
                (expect_unsigned_int ctx st2).bind fun (number, st3) =>
                  let span : Span := ⟨ident.span.start, number.span.stop⟩
                  (number_to_i32 number).bind fun b =>
                    .ok (⟨1, (match tok2 with | .plus _ => 1 | _ => -1) * b, span⟩, st3)
            -- syntax: n <signed-integer>
            | .number number =>
              (pbump ctx st1).bind fun (_, st2) =>
                let span : Span := ⟨ident.span.start, number.span.stop⟩
                (number_to_i32 number).bind fun b => .ok (⟨1, b, span⟩, st2)
            -- syntax: n
            | _ => .ok (⟨1, 0, ident.span⟩, st1)
        else if eq_ignore_ascii_case ident.name ['n', '-'] then
          -- syntax: n- <signless-integer>
          (expect_unsigned_int ctx st1).bind fun (number, st2) =>
            let span : Span := ⟨ident.span.start, number.span.stop⟩
            (number_to_i32 number).bind fun b => .ok (⟨1, -b, span⟩, st2)
        else
          match strip_pre ['n', '-'] ident.name with
          | some digits =>
            -- syntax: <ndashdigit-ident>
            if digits.any (fun c => !is_ascii_digit c) then
              .err ⟨.expectUnsignedInteger, ⟨ident.span.start + 2, ident.span.stop⟩⟩
            else
              match parse_i32_digits digits with
              | some b => .ok (⟨1, -b, ident.span⟩, st1)
              | none => .err ⟨.expectInteger, ⟨ident.span.start + 2, ident.span.stop⟩⟩
          | none =>
            if eq_ignore_ascii_case ident.name ['-', 'n'] then
              (peek ctx st1).bind fun tok2 =>
                match tok2 with
                -- syntax: -n ['+' | '-'] <signless-integer>
                | .plus _ | .minus _ =>
                  (pbump ctx st1).bind fun (_, st2) =>
                    (expect_unsigned_int ctx st2).bind fun (number, st3) =>
                      let span : Span := ⟨ident.span.start, number.span.stop⟩
                      (number_to_i32 number).bind fun b =>
                        .ok (⟨-1, (match tok2 with | .plus _ => 1 | _ => -1) * b, span⟩, st3)
                -- syntax: -n <signed-integer>
                | .number number =>
                  (pbump ctx st1).bind fun (_, st2) =>
                    let span : Span := ⟨ident.span.start, number.span.stop⟩
                    (number_to_i32 number).bind fun b => .ok (⟨-1, b, span⟩, st2)
                -- syntax: -n
                | _ => .ok (⟨-1, 0, ident.span⟩, st1)
            else if eq_ignore_ascii_case ident.name ['-', 'n', '-'] then
              -- syntax: -n- <signless-integer>
              (expect_unsigned_int ctx st1).bind fun (number, st2) =>
                let span : Span := ⟨ident.span.start, number.span.stop⟩
                (number_to_i32 number).bind fun b => .ok (⟨-1, -b, span⟩, st2)
            else
              match strip_pre ['-', 'n', '-'] ident.name with
              | some digits =>
                -- syntax: -n-<ndashdigit-ident>
                if digits.any (fun c => !is_ascii_digit c) then
                  .err ⟨.expectUnsignedInteger, ⟨ident.span.start + 3, ident.span.stop⟩⟩
                else
                  match parse_i32_digits digits with
                  | some b => .ok (⟨-1, -b, ident.span⟩, st1)
                  | none => .err ⟨.expectInteger, ⟨ident.span.start + 3, ident.span.stop⟩⟩
              | none => .err ⟨.invalidAnPlusB, ident.span⟩
    | _ => .err ⟨.invalidAnPlusB, tok.span⟩

/-- `impl Parse for ClassSelector`. -/
def ClassSelector_parse (ctx : Ctx) (st : TokenizerState) :
    POut (ClassSelector × TokenizerState) :=
  (p_expect ctx st fun t => match t with | .dot s => some s | _ => none).bind
    fun (dotSpan, st1) =>
      (InterpolableIdent_parse ctx st1).bind fun (ident, st2) =>
        (assert_no_ws_or_comment dotSpan ident.span).bind fun _ =>
          .ok (⟨ident, ⟨dotSpan.start, ident.span.stop⟩⟩, st2)

/-- `impl Parse for IdSelector`. -/
def IdSelector_parse (ctx : Ctx) (st : TokenizerState) : POut (IdSelector × TokenizerState) :=
  (pbump ctx st).bind fun (t, st1) =>
    match t with
    | .hash value _ rawWithoutHash hspan =>
      let first_span : Span := ⟨hspan.start + 1, hspan.stop⟩
      if (match value with | c :: _ => is_ascii_digit c | [] => false) then
        .err ⟨.invalidIdSelectorName, first_span⟩
      else
        let first : TIdent := ⟨value, rawWithoutHash, first_span⟩
        (peek ctx st1).bind fun t2 =>
          let hb :=
            match t2 with
            | .hashLBrace s =>
              (ctx.dialect == Syntax.scss || ctx.dialect == Syntax.sass) &&
                first.span.stop == s.start
            | _ => false
          if hb then
            (InterpolableIdent_parse ctx st1).bind fun (ii, st2) =>
              match ii with
              | .sassInterpolated els ispan =>
                let name := InterpolableIdent.sassInterpolated
                  (SassInterpolatedIdentElement.static first.name first.raw first.span :: els)
                  ispan
                .ok (⟨name, ⟨hspan.start, name.span.stop⟩⟩, st2)
              | _ => .panic
          else
            let name := InterpolableIdent.literal first
            .ok (⟨name, ⟨hspan.start, name.span.stop⟩⟩, st1)
    | .numberSign nspan =>
      (InterpolableIdent_parse ctx st1).bind fun (name, st2) =>
        .ok (⟨name, ⟨nspan.start, name.span.stop⟩⟩, st2)
    | t => .err ⟨.expectIdSelector, t.span⟩

/-- `impl Parse for TypeSelector` (the local `IdentOrAsterisk` is a `Sum`). -/
def TypeSelector_parse (ctx : Ctx) (st : TokenizerState) :
    POut (TypeSelector × TokenizerState) :=
  (peek ctx st).bind fun t =>
    (match t with
     | .ident _ | .hashLBrace _ =>
       (InterpolableIdent_parse ctx st).bind fun (ii, st') =>
         .ok ((some (Sum.inl ii) : Option (Sum InterpolableIdent Span)), st')
     | .asterisk aspan => (pbump ctx st).bind fun p => .ok (some (Sum.inr aspan), p.2)
     | .bar _ => .ok (none, st)
     | _ => .panic).bind fun (ioa, st1) =>
    let fallthrough : POut (TypeSelector × TokenizerState) :=
      match ioa with
      | some (Sum.inl ii) => .ok (.tagName ⟨ii, none, ii.span⟩ ii.span, st1)
      | some (Sum.inr asp) => .ok (.universal none asp, st1)
      | none => .panic
    (peek ctx st1).bind fun t2 =>
      match t2 with
      | .bar bspan =>
        if (match ioa with
            | some (Sum.inl ii) => ii.span.stop == bspan.start
            | some (Sum.inr asp) => asp.stop == bspan.start
            | none => true) then
          (pbump ctx st1).bind fun (_, st2) =>
            let pre : NsPrefix :=
              match ioa with
              | some (Sum.inl ii) => ⟨some (.ident ii), ⟨ii.span.start, bspan.stop⟩⟩
              | some (Sum.inr asp) => ⟨some (.universal asp), ⟨asp.start, bspan.stop⟩⟩
              | none => ⟨none, bspan⟩
            (peek ctx st2).bind fun t3 =>
              match t3 with
              | .ident _ | .hashLBrace _ =>
                (InterpolableIdent_parse ctx st2).bind fun (name, st3) =>
                  (assert_no_ws_or_comment pre.span name.span).bind fun _ =>
                    let span : Span := ⟨pre.span.start, name.span.stop⟩
                    .ok (.tagName ⟨name, some pre, span⟩ span, st3)
              | .asterisk asp2 =>
                (pbump ctx st2).bind fun (_, st3) =>
                  (assert_no_ws_or_comment pre.span asp2).bind fun _ =>
                    .ok (.universal (some pre) ⟨pre.span.start, asp2.stop⟩, st3)
              | t3x => .err ⟨.expectTypeSelector, t3x.span⟩
        else fallthrough
      | _ => fallthrough

/-- `impl Parse for NestingSelector`. -/
def NestingSelector_parse (ctx : Ctx) (st : TokenizerState) :
    POut (NestingSelector × TokenizerState) :=
  (p_expect ctx st fun t => match t with | .ampersand s => some s | _ => none).bind
    fun (s, st') => .ok (⟨s⟩, st')

/-- Modelled from the spec: the Sass placeholder selector parser (`%name`,
spec section 3) is outside the given sources: a `%` punctuator immediately
followed by an interpolable ident. -/
def SassPlaceholderSelector_parse (ctx : Ctx) (st : TokenizerState) :
    POut (SassPlaceholderSelector × TokenizerState) :=
  (p_expect ctx st fun t => match t with | .percent s => some s | _ => none).bind
    fun (s, st1) =>
      (InterpolableIdent_parse ctx st1).bind fun (name, st2) =>
        .ok (⟨name, ⟨s.start, name.span.stop⟩⟩, st2)

/-- Advance the tokenizer for `let _ = self.tokenizer.bump();` (the result,
including an error, is discarded; on the success path the state advances). -/
def bump_state (ctx : Ctx) (st : TokenizerState) : TokenizerState :=
  match bump ctx st with
  | .ok (_, s, _) => s
  | _ => st

/-- `impl Parse for AttributeSelector`. -/
def AttributeSelector_parse (ctx : Ctx) (st : TokenizerState) :
    POut (AttributeSelector × TokenizerState) :=
  (p_expect ctx st fun t => match t with | .lBracket s => some s | _ => none).bind
    fun (lb, st1) =>
  (pbump ctx st1).bind fun (t, st2) =>
  (match t with
   | .ident _ | .hashLBrace _ =>
     (InterpolableIdent_parse ctx st2).bind fun (ident, st3) =>
       (p_eat ctx st3 fun t => match t with | .bar s => some s | _ => none).bind
         fun (bar?, st4) =>
           match bar? with
           | some barSpan =>
             (assert_no_ws_or_comment ident.span barSpan).bind fun _ =>
             (InterpolableIdent_parse ctx st4).bind fun (name, st5) =>
             (assert_no_ws_or_comment barSpan name.span).bind fun _ =>
               .ok ((⟨name, some ⟨some (.ident ident), ⟨ident.span.start, barSpan.stop⟩⟩,
                 ⟨ident.span.start, name.span.stop⟩⟩ : WqName), st5)
           | none => .ok ((⟨ident, none, ident.span⟩ : WqName), st4)
   | .asterisk asp =>
     (p_expect ctx st2 fun t => match t with | .bar s => some s | _ => none).bind
       fun (barSpan, st3) =>
         (InterpolableIdent_parse ctx st3).bind fun (name, st4) =>
           .ok ((⟨name, some ⟨some (.universal asp), ⟨asp.start, barSpan.stop⟩⟩,
             ⟨asp.start, name.span.stop⟩⟩ : WqName), st4)
   | .bar barSpan =>
     (InterpolableIdent_parse ctx st2).bind fun (name, st3) =>
       .ok ((⟨name, some ⟨none, barSpan⟩, ⟨barSpan.start, name.span.stop⟩⟩ : WqName), st3)
   | tx => .err ⟨.expectWqName, tx.span⟩).bind fun (name, stN) =>
  (peek ctx stN).bind fun tm =>
  (match tm with
   | .rBracket _ => .ok ((none : Option AttributeSelectorMatcher), stN)
   | .equal s =>
     .ok ((some ⟨.equals, s⟩ : Option AttributeSelectorMatcher), bump_state ctx stN)
   | .tildeEqual s =>
     .ok ((some ⟨.tilde, s⟩ : Option AttributeSelectorMatcher), bump_state ctx stN)
   | .barEqual s =>
     .ok ((some ⟨.bar, s⟩ : Option AttributeSelectorMatcher), bump_state ctx stN)
   | .caretEqual s =>
     .ok ((some ⟨.caret, s⟩ : Option AttributeSelectorMatcher), bump_state ctx stN)
   | .dollarEqual s =>
     .ok ((some ⟨.dollar, s⟩ : Option AttributeSelectorMatcher), bump_state ctx stN)
   | .asteriskEqual s =>
     .ok ((some ⟨.asterisk, s⟩ : Option AttributeSelectorMatcher), bump_state ctx stN)
   | tmx => .err ⟨.expectAttributeSelectorMatcher, tmx.span⟩ :
     POut (Option AttributeSelectorMatcher × TokenizerState)).bind fun (matcher, stM) =>
  (pbump ctx stM).bind fun (tv, stV) =>
  (match tv with
   | .ident _ | .hashLBrace _ =>
     (InterpolableIdent_parse ctx stV).bind fun (i, s) =>
       .ok ((some (AttributeSelectorValue.ident i) : Option AttributeSelectorValue), s)
   | .str _ _ _ | .strTemplate _ _ _ _ =>
     (InterpolableStr_parse ctx stV).bind fun (x, s) => .ok (some (.str x), s)
   | .rBracket _ => .ok (none, stV)
   | tvx => .err ⟨.expectAttributeSelectorValue, tvx.span⟩ :
     POut (Option AttributeSelectorValue × TokenizerState)).bind fun (value, stVV) =>
  (if value.isSome then
     (peek ctx stVV).bind fun tmod =>
       match tmod with
       | .ident _ | .hashLBrace _ =>
         (InterpolableIdent_parse ctx stVV).bind fun (i, s) =>
           .ok ((some (⟨i, i.span⟩ : AttributeSelectorModifier) :
             Option AttributeSelectorModifier), s)
       | _ => .ok (none, stVV)
   else .ok ((none : Option AttributeSelectorModifier), stVV)).bind fun (modifier, stMod) =>
  (p_expect ctx stMod fun t => match t with | .rBracket s => some s | _ => none).bind
    fun (rb, stR) =>
      .ok (⟨name, matcher, value, modifier, ⟨lb.start, rb.stop⟩⟩, stR)

/-- `impl Parse for Nth`. -/
def Nth_parse (ctx : Ctx) (st : TokenizerState) : POut (Nth × TokenizerState) :=
  (peek ctx st).bind fun t =>
    let anb : POut (Nth × TokenizerState) :=
      (AnPlusB_parse ctx st).bind fun (x, st') => .ok (.anPlusB x, st')
    match t with
    | .ident id =>
      if eq_ignore_ascii_case id.name "odd".toList then
        (p_expect ctx st fun t => match t with | .ident i => some i | _ => none).bind
          fun (i, st') => .ok (.odd i, st')
      else if eq_ignore_ascii_case id.name "even".toList then
        (p_expect ctx st fun t => match t with | .ident i => some i | _ => none).bind
          fun (i, st') => .ok (.even i, st')
      else anb
    | .number _ =>
      (p_expect ctx st fun t => match t with | .number n => some n | _ => none).bind
        fun (number, st') =>
          if number.value.den = 1 then .ok (.integer number, st')
          else .err ⟨.expectInteger, number.span⟩
    | _ => anb

/-- `impl Parse for LanguageRange`. -/
def LanguageRange_parse (ctx : Ctx) (st : TokenizerState) :
    POut (LanguageRange × TokenizerState) :=
  (peek ctx st).bind fun t =>
    match t with
    | .str _ _ _ | .strTemplate _ _ _ _ =>
      (InterpolableStr_parse ctx st).bind fun (s, st') => .ok (.str s, st')
    | _ => (InterpolableIdent_parse ctx st).bind fun (i, st') => .ok (.ident i, st')

/-- Comma loop of `impl Parse for LanguageRangeList`. -/
def LanguageRangeList_loop :
    Nat → Ctx → TokenizerState → List LanguageRange → POut (List LanguageRange × TokenizerState)
  | 0, _, _, _ => .outOfFuel
  | fuel + 1, ctx, st, acc =>
    (p_eat ctx st fun t => match t with | .comma s => some s | _ => none).bind
      fun (c?, st1) =>
        match c? with
        | some _ =>
          (LanguageRange_parse ctx st1).bind fun (x, st2) =>
            LanguageRangeList_loop fuel ctx st2 (acc ++ [x])
        | none => .ok (acc, st1)

/-- `impl Parse for LanguageRangeList`. -/
def LanguageRangeList_parse (ctx : Ctx) (st : TokenizerState) :
    POut (LanguageRangeList × TokenizerState) :=
  (LanguageRange_parse ctx st).bind fun (first, st1) =>
    (LanguageRangeList_loop (st1.chars.length + 1) ctx st1 [first]).bind fun (ranges, st2) =>
      let stop :=
        match ranges.getLast? with
        | some last => last.span.stop
        | none => first.span.stop
      .ok (⟨ranges, ⟨first.span.start, stop⟩⟩, st2)

/-- The token kinds whose (gapped) arrival makes `parse_combinator` produce a
`Descendant` combinator: the guarded first arm of its `match`
(`Ident | Dot | Hash | Colon | ColonColon | Asterisk | Ampersand | Bar`). -/
def descendant_target (t : Token) : Option Span :=
  match t with
  | .ident id => some id.span
  | .dot s => some s
  | .hash _ _ _ s => some s
  | .colon s => some s
  | .colonColon s => some s
  | .asterisk s => some s
  | .ampersand s => some s
  | .bar s => some s
  | _ => none

/-- `Parser::parse_combinator` (selector.rs). -/
def parse_combinator (ctx : Ctx) (st : TokenizerState) :
    POut (Option Combinator × TokenizerState) :=
  let co := current_offset ctx st
  (peek ctx st).bind fun t =>
    let explicit : POut (Option Combinator × TokenizerState) :=
      match t with
      | .greaterThan s => .ok (some ⟨.child, s⟩, bump_state ctx st)
      | .plus s => .ok (some ⟨.nextSibling, s⟩, bump_state ctx st)
      | .tilde s => .ok (some ⟨.laterSibling, s⟩, bump_state ctx st)
      | .barBar s => .ok (some ⟨.column, s⟩, bump_state ctx st)
      | _ => .ok (none, st)
    match descendant_target t with
    | some sp =>
      if co < sp.start then .ok (some ⟨.descendant, ⟨co, sp.start⟩⟩, st)
      else explicit
    | none => explicit

/-- The token kinds on which the `CompoundSelector::parse` loop appends
another simple selector (its `match` arm set: `Dot | Hash | Colon |
ColonColon | Ampersand | Ident | Asterisk | HashLBrace | NumberSign |
Bar`). -/
def compound_next (t : Token) : Option Span :=
  match t with
  | .dot s => some s
  | .hash _ _ _ s => some s
  | .colon s => some s
  | .colonColon s => some s
  | .ampersand s => some s
  | .ident id => some id.span
  | .asterisk s => some s
  | .hashLBrace s => some s
  | .numberSign s => some s
  | .bar s => some s
  | _ => none

mutual
/-- `impl Parse for SimpleSelector` (selector.rs): one-token-lookahead
dispatch; an unmatched token (including `%` outside SCSS/Sass) raises
`ExpectSimpleSelector`. -/
def SimpleSelector_parse :
    Nat → Ctx → TokenizerState → POut (SimpleSelector × TokenizerState)
  | 0, _, _ => .outOfFuel
  | fuel + 1, ctx, st =>
    (peek ctx st).bind fun t =>
      match t with
      | .dot _ =>
        (ClassSelector_parse ctx st).bind fun (c, st') => .ok (.cls c, st')
      | .hash _ _ _ _ | .numberSign _ =>
        (IdSelector_parse ctx st).bind fun (i, st') => .ok (.id i, st')
      | .lBracket _ =>
        (AttributeSelector_parse ctx st).bind fun (a, st') => .ok (.attribute a, st')
      | .colon _ =>
        (PseudoClassSelector_parse fuel ctx st).bind fun (p, st') => .ok (.pseudoClass p, st')
      | .colonColon _ =>
        (PseudoElementSelector_parse fuel ctx st).bind fun (p, st') =>
          .ok (.pseudoElement p, st')
      | .ident _ | .asterisk _ | .hashLBrace _ | .bar _ =>
        (TypeSelector_parse ctx st).bind fun (ts, st') => .ok (.typ ts, st')
      | .ampersand _ =>
        (NestingSelector_parse ctx st).bind fun (n, st') => .ok (.nesting n, st')
      | .percent _ =>
        if ctx.dialect = .scss ∨ ctx.dialect = .sass then
          (SassPlaceholderSelector_parse ctx st).bind fun (s, st') =>
            .ok (.sassPlaceholder s, st')
        else .err ⟨.expectSimpleSelector, t.span⟩
      | t => .err ⟨.expectSimpleSelector, t.span⟩

/-- The `loop` in `impl Parse for CompoundSelector`: while the peeked token is
one of the `compound_next` kinds and its span starts exactly at
`current_offset()`, parse and append another simple selector. -/
def CompoundSelector_loop :
    Nat → Ctx → TokenizerState → List SimpleSelector →
      POut (List SimpleSelector × TokenizerState)
  | 0, _, _, _ => .outOfFuel
  | fuel + 1, ctx, st, children =>
    (peek ctx st).bind fun t =>
      match compound_next t with
      | some sp =>
        if current_offset ctx st = sp.start then
          (SimpleSelector_parse fuel ctx st).bind fun (s, st') =>
            CompoundSelector_loop fuel ctx st' (children ++ [s])
        else .ok (children, st)
      | none => .ok (children, st)

/-- `impl Parse for CompoundSelector`. -/
def CompoundSelector_parse :
    Nat → Ctx → TokenizerState → POut (CompoundSelector × TokenizerState)
  | 0, _, _ => .outOfFuel
  | fuel + 1, ctx, st =>
    (SimpleSelector_parse fuel ctx st).bind fun (first, st1) =>
      let span0 := first.span
      (CompoundSelector_loop fuel ctx st1 [first]).bind fun (children, st2) =>
        let stop :=
          match children.getLast? with
          | some last => last.span.stop
          | none => span0.stop
        .ok (.mk children ⟨span0.start, stop⟩, st2)

/-- The combinator loop in `impl Parse for ComplexSelector`. -/
def ComplexSelector_loop :
    Nat → Ctx → TokenizerState → List ComplexSelectorChild →
      POut (List ComplexSelectorChild × TokenizerState)
  | 0, _, _, _ => .outOfFuel
  | fuel + 1, ctx, st, children =>
    (parse_combinator ctx st).bind fun (comb?, st1) =>
      match comb? with
      | some comb =>
        (CompoundSelector_parse fuel ctx st1).bind fun (cs, st2) =>
          ComplexSelector_loop fuel ctx st2
            (children ++ [.combinator comb, .compoundSelector cs])
      | none => .ok (children, st1)

/-- `impl Parse for ComplexSelector`. -/
def ComplexSelector_parse :
    Nat → Ctx → TokenizerState → POut (ComplexSelector × TokenizerState)
  | 0, _, _ => .outOfFuel
  | fuel + 1, ctx, st =>
    (CompoundSelector_parse fuel ctx st).bind fun (first, st1) =>
      let span0 := first.span
      (ComplexSelector_loop fuel ctx st1 [.compoundSelector first]).bind
        fun (children, st2) =>
          let stop :=
            match children.getLast? with
            | some last => last.span.stop
            | none => span0.stop
          .ok (.mk children ⟨span0.start, stop⟩, st2)

/-- Comma loop of `impl Parse for SelectorList`. -/
def SelectorList_loop :
    Nat → Ctx → TokenizerState → List ComplexSelector →
      POut (List ComplexSelector × TokenizerState)
  | 0, _, _, _ => .outOfFuel
  | fuel + 1, ctx, st, acc =>
    (p_eat ctx st fun t => match t with | .comma s => some s | _ => none).bind
      fun (c?, st1) =>
        match c? with
        | some _ =>
          (ComplexSelector_parse fuel ctx st1).bind fun (x, st2) =>
            SelectorList_loop fuel ctx st2 (acc ++ [x])
        | none => .ok (acc, st1)

/-- `impl Parse for SelectorList`. -/
def SelectorList_parse :
    Nat → Ctx → TokenizerState → POut (SelectorList × TokenizerState)
  | 0, _, _ => .outOfFuel
  | fuel + 1, ctx, st =>
    (ComplexSelector_parse fuel ctx st).bind fun (first, st1) =>
      let span0 := first.span
      (SelectorList_loop fuel ctx st1 [first]).bind fun (selectors, st2) =>
        let stop :=
          match selectors.getLast? with
          | some last => last.span.stop
          | none => span0.stop
        .ok (.mk selectors ⟨span0.start, stop⟩, st2)

/-- Comma loop of `impl Parse for CompoundSelectorList`. -/
def CompoundSelectorList_loop :
    Nat → Ctx → TokenizerState → List CompoundSelector →
      POut (List CompoundSelector × TokenizerState)
  | 0, _, _, _ => .outOfFuel
  | fuel + 1, ctx, st, acc =>
    (p_eat ctx st fun t => match t with | .comma s => some s | _ => none).bind
      fun (c?, st1) =>
        match c? with
        | some _ =>
          (CompoundSelector_parse fuel ctx st1).bind fun (x, st2) =>
            CompoundSelectorList_loop fuel ctx st2 (acc ++ [x])
        | none => .ok (acc, st1)

/-- `impl Parse for CompoundSelectorList`. -/
def CompoundSelectorList_parse :
    Nat → Ctx → TokenizerState → POut (CompoundSelectorList × TokenizerState)
  | 0, _, _ => .outOfFuel
  | fuel + 1, ctx, st =>
    (CompoundSelector_parse fuel ctx st).bind fun (first, st1) =>
      let span0 := first.span
      (CompoundSelectorList_loop fuel ctx st1 [first]).bind fun (selectors, st2) =>
        let stop :=
          match selectors.getLast? with
          | some last => last.span.stop
          | none => span0.stop
        .ok (.mk selectors ⟨span0.start, stop⟩, st2)

/-- `impl Parse for RelativeSelector`. -/
def RelativeSelector_parse :
    Nat → Ctx → TokenizerState → POut (RelativeSelector × TokenizerState)
  | 0, _, _ => .outOfFuel
  | fuel + 1, ctx, st =>
    (parse_combinator ctx st).bind fun (comb?, st1) =>
      (ComplexSelector_parse fuel ctx st1).bind fun (cx, st2) =>
        let span : Span :=
          match comb? with
          | some comb => ⟨comb.span.start, cx.span.stop⟩
          | none => cx.span
        .ok (.mk comb? cx span, st2)

/-- Comma loop of `impl Parse for RelativeSelectorList`. -/
def RelativeSelectorList_loop :
    Nat → Ctx → TokenizerState → List RelativeSelector →
      POut (List RelativeSelector × TokenizerState)
  | 0, _, _, _ => .outOfFuel
  | fuel + 1, ctx, st, acc =>
    (p_eat ctx st fun t => match t with | .comma s => some s | _ => none).bind
      fun (c?, st1) =>
        match c? with
        | some _ =>
          (RelativeSelector_parse fuel ctx st1).bind fun (x, st2) =>
            RelativeSelectorList_loop fuel ctx st2 (acc ++ [x])
        | none => .ok (acc, st1)

/-- `impl Parse for RelativeSelectorList`. -/
def RelativeSelectorList_parse :
    Nat → Ctx → TokenizerState → POut (RelativeSelectorList × TokenizerState)
  | 0, _, _ => .outOfFuel
  | fuel + 1, ctx, st =>
    (RelativeSelector_parse fuel ctx st).bind fun (first, st1) =>
      let span0 := first.span
      (RelativeSelectorList_loop fuel ctx st1 [first]).bind fun (selectors, st2) =>
        let stop :=
          match selectors.getLast? with
          | some last => last.span.stop
          | none => span0.stop
        .ok (.mk selectors ⟨span0.start, stop⟩, st2)

/-- `impl Parse for PseudoClassSelector`: `:` plus an adjacent name; when an
adjacent `(` follows, the argument grammar is dispatched on the literal name
(ASCII-case-insensitively); an unknown name — and a non-literal name — hits
`todo!()`, modelled as `panic`. -/
def PseudoClassSelector_parse :
    Nat → Ctx → TokenizerState → POut (PseudoClassSelector × TokenizerState)
  | 0, _, _ => .outOfFuel
  | fuel + 1, ctx, st =>
    (p_expect ctx st fun t => match t with | .colon s => some s | _ => none).bind
      fun (colonSpan, st1) =>
    (InterpolableIdent_parse ctx st1).bind fun (name, st2) =>
    let name_span := name.span
    (assert_no_ws_or_comment colonSpan name_span).bind fun _ =>
    (peek ctx st2).bind fun t =>
      match t with
      | .lParen lp =>
        if lp.start = name_span.stop then
          (p_expect ctx st2 fun t => match t with | .lParen s => some s | _ => none).bind
            fun (_, st3) =>
          (match name with
           | .literal id =>
             let nm := id.name
             if eq_ignore_ascii_case nm "nth-child".toList ||
                eq_ignore_ascii_case nm "nth-last-child".toList ||
                eq_ignore_ascii_case nm "nth-of-type".toList ||
                eq_ignore_ascii_case nm "nth-last-of-type".toList ||
                eq_ignore_ascii_case nm "nth-col".toList ||
                eq_ignore_ascii_case nm "nth-last-col".toList then
               (Nth_parse ctx st3).bind fun (x, st4) =>
                 .ok (PseudoClassSelectorArg.nth x, st4)
             else if eq_ignore_ascii_case nm "not".toList ||
                eq_ignore_ascii_case nm "is".toList ||
                eq_ignore_ascii_case nm "where".toList ||
                eq_ignore_ascii_case nm "matches".toList then
               (SelectorList_parse fuel ctx st3).bind fun (x, st4) =>
                 .ok (.selectorList x, st4)
             else if eq_ignore_ascii_case nm "has".toList then
               (RelativeSelectorList_parse fuel ctx st3).bind fun (x, st4) =>
                 .ok (.relativeSelectorList x, st4)
             else if eq_ignore_ascii_case nm "dir".toList then
               (InterpolableIdent_parse ctx st3).bind fun (x, st4) =>
                 .ok (.ident x, st4)
             else if eq_ignore_ascii_case nm "lang".toList then
               (LanguageRangeList_parse ctx st3).bind fun (x, st4) =>
                 .ok (.languageRangeList x, st4)
             else if eq_ignore_ascii_case nm "-moz-any".toList ||
                eq_ignore_ascii_case nm "-webkit-any".toList ||
                eq_ignore_ascii_case nm "current".toList ||
                eq_ignore_ascii_case nm "past".toList ||
                eq_ignore_ascii_case nm "future".toList then
               (CompoundSelectorList_parse fuel ctx st3).bind fun (x, st4) =>
                 .ok (.compoundSelectorList x, st4)
             else if eq_ignore_ascii_case nm "host".toList ||
                eq_ignore_ascii_case nm "host-context".toList then
               (CompoundSelector_parse fuel ctx st3).bind fun (x, st4) =>
                 .ok (.compoundSelector x, st4)
             else .panic
           | _ => .panic :
           POut (PseudoClassSelectorArg × TokenizerState)).bind fun (arg, st4) =>
          (p_expect ctx st4 fun t => match t with | .rParen s => some s | _ => none).bind
            fun (rp, st5) =>
              .ok (.mk name (some arg) ⟨colonSpan.start, rp.stop⟩, st5)
        else .ok (.mk name none ⟨colonSpan.start, name_span.stop⟩, st2)
      | _ => .ok (.mk name none ⟨colonSpan.start, name_span.stop⟩, st2)

/-- `impl Parse for PseudoElementSelector`: `::` plus an adjacent name;
argument dispatch for `part`, `cue`, `cue-region`, `slotted`; otherwise
`todo!()`, modelled as `panic`. -/
def PseudoElementSelector_parse :
    Nat → Ctx → TokenizerState → POut (PseudoElementSelector × TokenizerState)
  | 0, _, _ => .outOfFuel
  | fuel + 1, ctx, st =>
    (p_expect ctx st fun t => match t with | .colonColon s => some s | _ => none).bind
      fun (ccSpan, st1) =>
    (InterpolableIdent_parse ctx st1).bind fun (name, st2) =>
    let name_span := name.span
    (assert_no_ws_or_comment ccSpan name_span).bind fun _ =>
    (peek ctx st2).bind fun t =>
      match t with
      | .lParen lp =>
        if lp.start = name_span.stop then
          (p_expect ctx st2 fun t => match t with | .lParen s => some s | _ => none).bind
            fun (_, st3) =>
          (match name with
           | .literal id =>
             let nm := id.name
             if eq_ignore_ascii_case nm "part".toList then
               (InterpolableIdent_parse ctx st3).bind fun (x, st4) =>
                 .ok (PseudoElementSelectorArg.ident x, st4)
             else if eq_ignore_ascii_case nm "cue".toList ||
                eq_ignore_ascii_case nm "cue-region".toList ||
                eq_ignore_ascii_case nm "slotted".toList then
               (CompoundSelector_parse fuel ctx st3).bind fun (x, st4) =>
                 .ok (.compoundSelector x, st4)
             else .panic
           | _ => .panic :
           POut (PseudoElementSelectorArg × TokenizerState)).bind fun (arg, st4) =>
          (p_expect ctx st4 fun t => match t with | .rParen s => some s | _ => none).bind
            fun (rp, st5) =>
              .ok (.mk name (some arg) ⟨ccSpan.start, rp.stop⟩, st5)
        else .ok (.mk name none ⟨ccSpan.start, name_span.stop⟩, st2)
      | _ => .ok (.mk name none ⟨ccSpan.start, name_span.stop⟩, st2)
end

/-- The raw slice of a literal-bearing token (`Ident`, `Number`, `Str`,
`Hash`, `Dimension` — the kinds named by the round-trip property in spec
section 8); other tokens contribute nothing. -/
def literal_raw (t : Token) : List Char :=
  match t with
  | .ident id => id.raw
  | .number n => n.raw
  | .str raw _ _ => raw
  | .hash _ raw _ _ => raw
  | .dimension v u _ => v.raw ++ u.raw
  | _ => []

/-- Concatenation of the raw slices of the literal-bearing tokens, in source
order. -/
def raws_concat (ts : List Token) : List Char :=
  (ts.map literal_raw).flatten

/-- `bump` with an attached comments sink: the collected comments are
appended to it. -/
def bump_with_sink (ctx : Ctx) (st : TokenizerState) (sink : List Comment) :
    POut (Token × TokenizerState × List Comment) :=
  (bump ctx st).bind fun (t, st', cs) => .ok (t, st', sink ++ cs)

/-- `peek` with an attached comments sink, mirroring the Rust
`Tokenizer::peek` body: clone the state, `take` the sink (detaching it, so
the speculative `bump` records nothing), `bump`, then restore the state and
reattach the sink. -/
def peek_with_sink (ctx : Ctx) (st : TokenizerState) (sink : List Comment) :
    POut (Token × TokenizerState × List Comment) :=
  match bump ctx st with
  | .ok (t, _, _) => .ok (t, st, sink)
  | .err e => .err e
  | .panic => .panic
  | .outOfFuel => .outOfFuel

/-- In `scan_indent_go`, once `start` is set, a whitespace run containing no
further `\n` leaves it unchanged, and the loop stops at the first
non-whitespace character. -/
theorem scan_indent_go_no_nl (ws2 : List (Nat × Char)) (j : Nat) (c : Char)
    (rest : List (Nat × Char)) (s0 : Option Nat)
    (hws : ∀ p ∈ ws2, is_ascii_whitespace p.2 = true ∧ p.2 ≠ '\n')
    (hc : is_ascii_whitespace c = false) :
    scan_indent_go (ws2 ++ (j, c) :: rest) s0 = (s0, (j, c) :: rest) := by
  induction ws2 generalizing s0 with
  | nil => simp [scan_indent_go, hc]
  | cons p ws2' ih =>
    obtain ⟨k, d⟩ := p
    have hd := hws (k, d) (by simp)
    simp only at hd
    have hnl : head_is_lf (ws2' ++ (j, c) :: rest) = false := by
      rcases ws2' with _ | ⟨⟨m, e⟩, ws2''⟩
      · have hcn : c ≠ '\n' := by
          intro h
          rw [h] at hc
          simp [is_ascii_whitespace] at hc
        simp [head_is_lf, hcn]
      · have he := hws (m, e) (by simp)
        simp only at he
        simp [head_is_lf, he.2]
    have ih' := ih s0 (fun p hp => hws p (by simp [hp]))
    simp only [List.cons_append, scan_indent_go, hd.1, if_true, List.append_eq, hnl, hd.2,
      Bool.and_false, Bool.or_false, if_neg, decide_eq_true_eq]
    simp [hd.2, ih']

/-- Processing the last line break resets `start` to just after it, whatever
its previous value. -/
theorem scan_indent_go_after_nl (i : Nat) (ws2 : List (Nat × Char)) (j : Nat) (c : Char)
    (rest : List (Nat × Char)) (s0 : Option Nat)
    (hws : ∀ p ∈ ws2, is_ascii_whitespace p.2 = true ∧ p.2 ≠ '\n')
    (hc : is_ascii_whitespace c = false) :
    scan_indent_go ((i, '\n') :: (ws2 ++ (j, c) :: rest)) s0 =
      (some (i + 1), (j, c) :: rest) := by
  have : is_ascii_whitespace '\n' = true := by decide
  simp only [scan_indent_go, this, if_true]
  simpa using scan_indent_go_no_nl ws2 j c rest (some (i + 1)) hws hc

/-- A whitespace run whose last line break is the displayed `\n` drives the
`scan_indent` loop to `start = i + 1` and stops at the first non-whitespace
character, for any initial `start`. -/
theorem scan_indent_go_last_nl (ws : List (Nat × Char)) (i : Nat) (ws2 : List (Nat × Char))
    (j : Nat) (c : Char) (rest : List (Nat × Char)) (s0 : Option Nat)
    (hws1 : ∀ p ∈ ws, is_ascii_whitespace p.2 = true)
    (hws2 : ∀ p ∈ ws2, is_ascii_whitespace p.2 = true ∧ p.2 ≠ '\n')
    (hc : is_ascii_whitespace c = false) :
    scan_indent_go (ws ++ (i, '\n') :: ws2 ++ (j, c) :: rest) s0 =
      (some (i + 1), (j, c) :: rest) := by
  induction ws generalizing s0 with
  | nil => simpa using scan_indent_go_after_nl i ws2 j c rest s0 hws2 hc
  | cons p ws' ih =>
    obtain ⟨k, d⟩ := p
    have hd := hws1 (k, d) (by simp)
    simp only at hd
    have ih' := fun s0 => ih s0 (fun p hp => hws1 p (by simp [hp]))
    simp only [List.cons_append, scan_indent_go, hd, if_true, List.append_eq]
    split <;> exact ih' _

/-- An all-whitespace remainder exhausts the `scan_indent` loop. -/
theorem scan_indent_go_all_ws (l : List (Nat × Char)) (s0 : Option Nat)
    (hws : ∀ p ∈ l, is_ascii_whitespace p.2 = true) :
    (scan_indent_go l s0).2 = [] := by
  induction l generalizing s0 with
  | nil => simp [scan_indent_go]
  | cons p l' ih =>
    obtain ⟨k, d⟩ := p
    have hd := hws (k, d) (by simp)
    simp only at hd
    simp only [scan_indent_go, hd, if_true]
    exact ih _ (fun p hp => hws p (by simp [hp]))

/-- C1: the claim says every tokenizer entry point is total and in particular
the `assert!(start < end)` in `scan_number` cannot fire.  It does fire: on
the input `.5` — a valid CSS number — reaching the end of input leaves `end`
at its initial value `0`, so `bump` (which dispatches `.5` to `scan_number`)
panics instead of returning a value.  Appending a trailing space (`.5 `)
makes the same number scan succeed, confirming the panic is the EOF path. -/
theorem C1_scan_number_assert_fires :
    scan_number (mk_ctx ".5".toList .css) (init_state (mk_ctx ".5".toList .css)) = .panic ∧
    bump (mk_ctx ".5".toList .css) (init_state (mk_ctx ".5".toList .css)) = .panic ∧
    bump (mk_ctx ".5 ".toList .css) (init_state (mk_ctx ".5 ".toList .css)) =
      .ok (.number ⟨Rat.divInt 1 2, ['.', '5'], ⟨0, 2⟩⟩, ⟨[(2, ' ')], 0, [], .none⟩, []) :=
  ⟨rfl, rfl, rfl⟩

/-- C2: the claim says concatenating the raw slices of literal-bearing tokens
reproduces the source minus whitespace and comments, and in particular a
token ending at the end of input keeps all its characters.  It does not: on
the input `ab` the identifier's continue loop reaches EOF without updating
`end`, so the produced `Ident` has raw slice `a` and span `[0, 1)`, and the
concatenation `a` differs from the comment- and whitespace-free source
`ab`. -/
theorem C2_raw_slice_truncated_at_eof :
    tokens_until_eof 4 (mk_ctx "ab".toList .css) (init_state (mk_ctx "ab".toList .css)) =
      .ok ([.ident ⟨['a'], ['a'], ⟨0, 1⟩⟩, .eof ⟨2, 2⟩], ⟨[], 0, [], .none⟩, []) ∧
    raws_concat [.ident ⟨['a'], ['a'], ⟨0, 1⟩⟩, .eof ⟨2, 2⟩] = ['a'] ∧
    ['a'] ≠ "ab".toList :=
  ⟨rfl, rfl, by decide⟩

/-- C10: the claim says an unterminated block comment is consumed to the end
of input, recorded in the sink, and followed by `Eof`.  On `/*a` the comment
is recorded with content `a` and span `[0, 3)` as claimed, but the loop exits
on `peek_two_chars = None` without consuming the last character, so `bump`
returns `Ident "a"` — not `Eof`.  (Only with an empty comment body, `/*`,
does `bump` return `Eof`.) -/
theorem C10_unterminated_comment_last_char_rescanned :
    bump (mk_ctx "/*a".toList .css) (init_state (mk_ctx "/*a".toList .css)) =
      .ok (.ident ⟨['a'], ['a'], ⟨2, 3⟩⟩, ⟨[], 0, [], .none⟩,
        [.block ['a'] ⟨0, 3⟩]) ∧
    bump (mk_ctx "/*".toList .css) (init_state (mk_ctx "/*".toList .css)) =
      .ok (.eof ⟨2, 2⟩, ⟨[], 0, [], .none⟩, [.block [] ⟨0, 2⟩]) :=
  ⟨rfl, rfl⟩

/-- C4 counterexample: after the compound selector `a` in the source `a #`
there is a gap (`current_offset = 1`, next token starts at 2) and the next
token is the bare `#` (`NumberSign`) — one of the lexemes the claim lists —
yet `parse_combinator` returns no combinator at all: `NumberSign` (like
`HashLBrace`) is missing from its descendant arm. -/
theorem C4_bare_hash_no_descendant :
    bump (mk_ctx "a #".toList .css) (init_state (mk_ctx "a #".toList .css)) =
      .ok (.ident ⟨['a'], ['a'], ⟨0, 1⟩⟩, ⟨[(1, ' '), (2, '#')], 0, [], .none⟩, []) ∧
    peek (mk_ctx "a #".toList .css) ⟨[(1, ' '), (2, '#')], 0, [], .none⟩ =
      .ok (.numberSign ⟨2, 3⟩) ∧
    current_offset (mk_ctx "a #".toList .css) ⟨[(1, ' '), (2, '#')], 0, [], .none⟩ = 1 ∧
    parse_combinator (mk_ctx "a #".toList .css) ⟨[(1, ' '), (2, '#')], 0, [], .none⟩ =
      .ok (none, ⟨[(1, ' '), (2, '#')], 0, [], .none⟩) :=
  ⟨rfl, rfl, rfl, rfl⟩

/-- C5 counterexample: the single-dimension `An+B` shape `<value>n-<digits>`
is matched with the case-sensitive `strip_prefix("n-")`, so `2N-3` (upper
case `N`, tokenized as one dimension with unit `N-3`) is rejected with
`InvalidAnPlusB`, while `2n-3` parses to `a = 2`, `b = -3`. -/
theorem C5_upper_ndashdigit_rejected :
    AnPlusB_parse (mk_ctx "2N-3)".toList .css) (init_state (mk_ctx "2N-3)".toList .css)) =
      .err ⟨.invalidAnPlusB, ⟨0, 4⟩⟩ ∧
    AnPlusB_parse (mk_ctx "2n-3)".toList .css) (init_state (mk_ctx "2n-3)".toList .css)) =
      .ok (⟨2, -3, ⟨0, 4⟩⟩, ⟨[(4, ')')], 0, [], .none⟩) :=
  ⟨rfl, rfl⟩

/-- C5 amended: the `An+B` shapes matched with `eq_ignore_ascii_case` are
ASCII-case-insensitive (`2N` ≡ `2n`, `2N- 3` ≡ `2n- 3`), but the
ndashdigit-dimension and ndashdigit-ident shapes use the case-sensitive
`strip_prefix`, so they require a lower-case `n`: `2n-3` and `n-3` parse to
`b = -3` while `2N-3` and `-N-3` fail with `InvalidAnPlusB`. -/
theorem C5_anplusb_case_sensitivity :
    AnPlusB_parse (mk_ctx "2n-3)".toList .css) (init_state (mk_ctx "2n-3)".toList .css)) =
      .ok (⟨2, -3, ⟨0, 4⟩⟩, ⟨[(4, ')')], 0, [], .none⟩) ∧
    AnPlusB_parse (mk_ctx "2N-3)".toList .css) (init_state (mk_ctx "2N-3)".toList .css)) =
      .err ⟨.invalidAnPlusB, ⟨0, 4⟩⟩ ∧
    AnPlusB_parse (mk_ctx "n-3)".toList .css) (init_state (mk_ctx "n-3)".toList .css)) =
      .ok (⟨1, -3, ⟨0, 3⟩⟩, ⟨[(3, ')')], 0, [], .none⟩) ∧
    AnPlusB_parse (mk_ctx "-N-3)".toList .css) (init_state (mk_ctx "-N-3)".toList .css)) =
      .err ⟨.invalidAnPlusB, ⟨0, 4⟩⟩ ∧
    AnPlusB_parse (mk_ctx "2N- 3".toList .css) (init_state (mk_ctx "2N- 3".toList .css)) =
      .ok (⟨2, -3, ⟨0, 5⟩⟩, ⟨[], 0, [], .none⟩) ∧
    AnPlusB_parse (mk_ctx "2N ".toList .css) (init_state (mk_ctx "2N ".toList .css)) =
      .ok (⟨2, 0, ⟨0, 2⟩⟩, ⟨[(2, ' ')], 0, [], .none⟩) :=
  ⟨rfl, rfl, rfl, rfl, rfl, rfl⟩

/-- C6 counterexample: tokenizing the SCSS source `"a#{b}c"`, the first
token's raw slice is `a` — the `StrTemplate` raw excludes the opening quote
(its span `[0, 2)` does include it) — and the second token is a plain
`LBrace` spanning `[3, 4)`: the `#` was consumed inside the string scanner,
so no `HashLBrace` token is ever produced, contradicting the claimed
`raw = "\"a"` and `HashLBrace` sequence. -/
theorem C6_hash_swallowed_before_interpolation :
    bump (mk_ctx "\"a#{b}c\"".toList .scss) (init_state (mk_ctx "\"a#{b}c\"".toList .scss)) =
      .ok (.strTemplate ['a'] ['a'] false ⟨0, 2⟩,
        ⟨[(3, '{'), (4, 'b'), (5, '}'), (6, 'c'), (7, '"')], 0,
          [(.interpolation, '"')], .none⟩, []) ∧
    bump (mk_ctx "\"a#{b}c\"".toList .scss)
        ⟨[(3, '{'), (4, 'b'), (5, '}'), (6, 'c'), (7, '"')], 0,
          [(.interpolation, '"')], .none⟩ =
      .ok (.lBrace ⟨3, 4⟩,
        ⟨[(4, 'b'), (5, '}'), (6, 'c'), (7, '"')], 0, [(.interpolation, '"')], .none⟩, []) ∧
    (['a'] : List Char) ≠ ['"', 'a'] :=
  ⟨rfl, rfl, by decide⟩

/-- C6 amended: the SCSS source `"a#{b}c"` tokenizes as
`StrTemplate{raw "a", tail false, [0,2)}`, `LBrace [3,4)`, `Ident b`,
`RBrace [5,6)`, `StrTemplate{raw "c", tail true, [6,8)}`, `Eof`: the
template raws exclude the quotes, the interpolation opener appears as the
`#`-less `LBrace`, and re-concatenating raw slices does not reproduce the
source. -/
theorem C6_scss_string_template_trace :
    tokens_until_eof 8 (mk_ctx "\"a#{b}c\"".toList .scss)
        (init_state (mk_ctx "\"a#{b}c\"".toList .scss)) =
      .ok ([.strTemplate ['a'] ['a'] false ⟨0, 2⟩,
            .lBrace ⟨3, 4⟩,
            .ident ⟨['b'], ['b'], ⟨4, 5⟩⟩,
            .rBrace ⟨5, 6⟩,
            .strTemplate ['c'] ['c'] true ⟨6, 8⟩,
            .eof ⟨8, 8⟩], ⟨[], 0, [], .none⟩, []) :=
  rfl

/-- C9 counterexample: lexing the SCSS source `"a#{{}}b"`.  After the
interpolation frame is pushed, the tokens `LBrace [3,4)` (interpolation
opener), `LBrace [4,5)` (inner brace) are produced; the `}` at offset 5 —
which balances the inner `{`, not the interpolation — already flips the top
frame to `Static`, and the `}` at offset 6 that would balance the
interpolation is then consumed as string content by the resumed template
scan (raw `}b`).  So a non-balancing `}` does affect the frame. -/
theorem C9_inner_rbrace_flips_frame :
    bump (mk_ctx "\"a#{{}}b\"".toList .scss) (init_state (mk_ctx "\"a#{{}}b\"".toList .scss)) =
      .ok (.strTemplate ['a'] ['a'] false ⟨0, 2⟩,
        ⟨[(3, '{'), (4, '{'), (5, '}'), (6, '}'), (7, 'b'), (8, '"')], 0,
          [(.interpolation, '"')], .none⟩, []) ∧
    bump (mk_ctx "\"a#{{}}b\"".toList .scss)
        ⟨[(3, '{'), (4, '{'), (5, '}'), (6, '}'), (7, 'b'), (8, '"')], 0,
          [(.interpolation, '"')], .none⟩ =
      .ok (.lBrace ⟨3, 4⟩,
        ⟨[(4, '{'), (5, '}'), (6, '}'), (7, 'b'), (8, '"')], 0,
          [(.interpolation, '"')], .none⟩, []) ∧
    bump (mk_ctx "\"a#{{}}b\"".toList .scss)
        ⟨[(4, '{'), (5, '}'), (6, '}'), (7, 'b'), (8, '"')], 0,
          [(.interpolation, '"')], .none⟩ =
      .ok (.lBrace ⟨4, 5⟩,
        ⟨[(5, '}'), (6, '}'), (7, 'b'), (8, '"')], 0, [(.interpolation, '"')], .none⟩, []) ∧
    bump (mk_ctx "\"a#{{}}b\"".toList .scss)
        ⟨[(5, '}'), (6, '}'), (7, 'b'), (8, '"')], 0, [(.interpolation, '"')], .none⟩ =
      .ok (.rBrace ⟨5, 6⟩,
        ⟨[(6, '}'), (7, 'b'), (8, '"')], 0, [(.static, '"')], .none⟩, []) ∧
    bump (mk_ctx "\"a#{{}}b\"".toList .scss)
        ⟨[(6, '}'), (7, 'b'), (8, '"')], 0, [(.static, '"')], .none⟩ =
      .ok (.strTemplate ['}', 'b'] ['}', 'b'] true ⟨6, 9⟩, ⟨[], 0, [], .none⟩, []) :=
  ⟨rfl, rfl, rfl, rfl, rfl⟩

/-- C4 amended: combinator detection produces a `Descendant` spanning exactly
the gap `[current_offset, span.start)` whenever the peeked token is one of
the kinds in its descendant arm — ident, `.`, hash, `:`, `::`, `*`, `&`, `|`
(bare `#` and `#{` are not in that arm and end the complex selector
instead) — and the token starts strictly after `current_offset()`; e.g.
`a .b` parses as `Compound(Type(a))`, `Combinator(Descendant, [1,2))`,
`Compound(Class(b))`. -/
theorem C4_descendant_on_gap :
    (∀ (ctx : Ctx) (st : TokenizerState) (tok : Token) (sp : Span),
      peek ctx st = .ok tok → descendant_target tok = some sp →
      current_offset ctx st < sp.start →
      parse_combinator ctx st =
        .ok (some ⟨.descendant, ⟨current_offset ctx st, sp.start⟩⟩, st)) ∧
    ComplexSelector_parse 30 (mk_ctx "a .b".toList .css)
        (init_state (mk_ctx "a .b".toList .css)) =
      .ok (.mk
        [.compoundSelector (.mk
            [.typ (.tagName ⟨.literal ⟨['a'], ['a'], ⟨0, 1⟩⟩, none, ⟨0, 1⟩⟩ ⟨0, 1⟩)] ⟨0, 1⟩),
         .combinator ⟨.descendant, ⟨1, 2⟩⟩,
         .compoundSelector (.mk
            [.cls ⟨.literal ⟨['b'], ['b'], ⟨3, 4⟩⟩, ⟨2, 4⟩⟩] ⟨2, 4⟩)] ⟨0, 4⟩,
        ⟨[], 0, [], .none⟩) := by
  constructor
  · intro ctx st tok sp hpeek hdt hlt
    simp only [parse_combinator, hpeek, POut.bind, hdt]
    rw [if_pos hlt]
  · rfl

/-- C4 witness: the general descendant-gap statement applied to the source
` a` at its initial state (gap `[0, 1)` before the ident at offset 1). -/
theorem C4_descendant_on_gap_witness :
    parse_combinator (mk_ctx " a".toList .css) (init_state (mk_ctx " a".toList .css)) =
      .ok (some ⟨.descendant, ⟨0, 1⟩⟩, init_state (mk_ctx " a".toList .css)) := by
  exact C4_descendant_on_gap.1 _ _ (.ident ⟨['a'], ['a'], ⟨1, 2⟩⟩) ⟨1, 2⟩ rfl rfl
    (by decide)

/-- C8: `peek` returns exactly the token the following `bump` returns and is
stable: with the comments sink threaded the Rust way (detached across the
speculative probe, restored afterwards), a `peek` leaves both the state and
the sink untouched — so a second `peek` returns the same token and the next
`bump` is unaffected — and a `peek` followed by `bump` appends each comment
to the sink exactly once. -/
theorem C8_peek_stability :
    (∀ (ctx : Ctx) (st : TokenizerState) (t : Token) (st' : TokenizerState)
       (cs : List Comment),
      bump ctx st = .ok (t, st', cs) → peek ctx st = .ok t) ∧
    (∀ (ctx : Ctx) (st : TokenizerState) (sink : List Comment) (t : Token)
       (st' : TokenizerState) (cs : List Comment),
      bump ctx st = .ok (t, st', cs) →
      peek_with_sink ctx st sink = .ok (t, st, sink)) ∧
    (∀ (ctx : Ctx) (st : TokenizerState) (sink : List Comment) (t : Token)
       (st' : TokenizerState) (cs : List Comment),
      bump ctx st = .ok (t, st', cs) →
      ((peek_with_sink ctx st sink).bind fun p => bump_with_sink ctx p.2.1 p.2.2) =
        .ok (t, st', sink ++ cs)) := by
  refine ⟨?_, ?_, ?_⟩
  · intro ctx st t st' cs h
    simp [peek, h]
  · intro ctx st sink t st' cs h
    simp [peek_with_sink, h]
  · intro ctx st sink t st' cs h
    simp [peek_with_sink, bump_with_sink, h, POut.bind]

/-- C8 witness: on the source `/*c*/x` the one `bump` returns `Ident x` with
the block comment collected; applying the three parts of the peek-stability
theorem at it shows `peek` agreeing with `bump`, leaving state and sink
unchanged, and the peek-then-bump sequence recording the comment once. -/
theorem C8_peek_stability_witness :
    peek (mk_ctx "/*c*/x".toList .css) (init_state (mk_ctx "/*c*/x".toList .css)) =
      .ok (.ident ⟨['x'], ['x'], ⟨5, 6⟩⟩) ∧
    peek_with_sink (mk_ctx "/*c*/x".toList .css)
        (init_state (mk_ctx "/*c*/x".toList .css)) [] =
      .ok (.ident ⟨['x'], ['x'], ⟨5, 6⟩⟩, init_state (mk_ctx "/*c*/x".toList .css), []) ∧
    ((peek_with_sink (mk_ctx "/*c*/x".toList .css)
        (init_state (mk_ctx "/*c*/x".toList .css)) []).bind fun p =>
          bump_with_sink (mk_ctx "/*c*/x".toList .css) p.2.1 p.2.2) =
      .ok (.ident ⟨['x'], ['x'], ⟨5, 6⟩⟩, ⟨[], 0, [], .none⟩, [.block ['c'] ⟨0, 5⟩]) :=
  ⟨C8_peek_stability.1 _ _ _ ⟨[], 0, [], .none⟩ [.block ['c'] ⟨0, 5⟩] rfl,
   C8_peek_stability.2.1 _ _ _ _ ⟨[], 0, [], .none⟩ [.block ['c'] ⟨0, 5⟩] rfl,
   C8_peek_stability.2.2 _ _ _ _ ⟨[], 0, [], .none⟩ [.block ['c'] ⟨0, 5⟩] rfl⟩

/-- C3: parsing `a.b#c` yields one `ComplexSelector` holding a single
`CompoundSelector` with children `Type(a)`, `Class(b)`, `Id(c)` and outer
span `[0, 5)`; and in general the `CompoundSelector` loop appends a further
simple selector exactly while the peeked token is one of its ten
selector-initial kinds (`.`, hash, `:`, `::`, `&`, ident, `*`, `#{`, bare
`#`, `|`) with `span.start` equal to `current_offset()`, and returns at the
first non-adjacent or non-matching token. -/
theorem C3_compound_selector_adjacency :
    ComplexSelector_parse 30 (mk_ctx "a.b#c".toList .css)
        (init_state (mk_ctx "a.b#c".toList .css)) =
      .ok (.mk [.compoundSelector (.mk
            [.typ (.tagName ⟨.literal ⟨['a'], ['a'], ⟨0, 1⟩⟩, none, ⟨0, 1⟩⟩ ⟨0, 1⟩),
             .cls ⟨.literal ⟨['b'], ['b'], ⟨2, 3⟩⟩, ⟨1, 3⟩⟩,
             .id ⟨.literal ⟨['c'], ['c'], ⟨4, 5⟩⟩, ⟨3, 5⟩⟩] ⟨0, 5⟩)] ⟨0, 5⟩,
        ⟨[], 0, [], .none⟩) ∧
    (∀ (fuel : Nat) (ctx : Ctx) (st : TokenizerState) (tok : Token) (sp : Span)
       (children : List SimpleSelector),
      peek ctx st = .ok tok → compound_next tok = some sp →
      current_offset ctx st = sp.start →
      CompoundSelector_loop (fuel + 1) ctx st children =
        (SimpleSelector_parse fuel ctx st).bind fun p =>
          CompoundSelector_loop fuel ctx p.2 (children ++ [p.1])) ∧
    (∀ (fuel : Nat) (ctx : Ctx) (st : TokenizerState) (tok : Token) (sp : Span)
       (children : List SimpleSelector),
      peek ctx st = .ok tok → compound_next tok = some sp →
      current_offset ctx st ≠ sp.start →
      CompoundSelector_loop (fuel + 1) ctx st children = .ok (children, st)) ∧
    (∀ (fuel : Nat) (ctx : Ctx) (st : TokenizerState) (tok : Token)
       (children : List SimpleSelector),
      peek ctx st = .ok tok → compound_next tok = none →
      CompoundSelector_loop (fuel + 1) ctx st children = .ok (children, st)) := by
  refine ⟨rfl, ?_, ?_, ?_⟩
  · intro fuel ctx st tok sp children hpeek hnext hadj
    simp only [CompoundSelector_loop, hpeek, POut.bind, hnext]
    rw [if_pos hadj]
  · intro fuel ctx st tok sp children hpeek hnext hadj
    simp only [CompoundSelector_loop, hpeek, POut.bind, hnext]
    rw [if_neg hadj]
  · intro fuel ctx st tok children hpeek hnext
    simp only [CompoundSelector_loop, hpeek, POut.bind, hnext]

/-- C3 witness: the loop-characterization parts applied at concrete states:
on `.b` at offset 0 the loop takes the continue branch; on ` .b` (gap) and on
`+` (non-matching token) it returns its accumulated children. -/
theorem C3_compound_selector_adjacency_witness :
    CompoundSelector_loop 6 (mk_ctx ".b".toList .css) (init_state (mk_ctx ".b".toList .css))
        [] =
      ((SimpleSelector_parse 5 (mk_ctx ".b".toList .css)
          (init_state (mk_ctx ".b".toList .css))).bind fun p =>
        CompoundSelector_loop 5 (mk_ctx ".b".toList .css) p.2 ([] ++ [p.1])) ∧
    CompoundSelector_loop 6 (mk_ctx " .b".toList .css)
        (init_state (mk_ctx " .b".toList .css)) [] =
      .ok ([], init_state (mk_ctx " .b".toList .css)) ∧
    CompoundSelector_loop 6 (mk_ctx "+".toList .css) (init_state (mk_ctx "+".toList .css))
        [] =
      .ok ([], init_state (mk_ctx "+".toList .css)) :=
  ⟨C3_compound_selector_adjacency.2.1 5 _ _ (.dot ⟨0, 1⟩) ⟨0, 1⟩ [] rfl rfl rfl,
   C3_compound_selector_adjacency.2.2.1 5 _ _ (.dot ⟨1, 2⟩) ⟨1, 2⟩ [] rfl rfl
     (by decide),
   C3_compound_selector_adjacency.2.2.2 5 _ _ (.plus ⟨0, 1⟩) [] rfl rfl⟩

/-- C7: in Sass mode, when the consumed whitespace run contains a line break,
`scan_indent` measures the whitespace length after the last line break (the
`\n` at offset `i`, followed by `ws2` without further `\n`, up to the first
non-whitespace character at offset `j`) and yields `Indent` when it exceeds
the stored `indent_size`, `Dedent` when smaller, `Linebreak` when equal,
with `indent_size` equal to the measured length afterwards in every case;
reaching EOF inside whitespace yields `Eof`. -/
theorem C7_sass_indentation :
    (∀ (ctx : Ctx) (st : TokenizerState) (ws : List (Nat × Char)) (i : Nat)
       (ws2 : List (Nat × Char)) (j : Nat) (c : Char) (rest : List (Nat × Char)),
      st.chars = ws ++ (i, '\n') :: ws2 ++ (j, c) :: rest →
      (∀ p ∈ ws, is_ascii_whitespace p.2 = true) →
      (∀ p ∈ ws2, is_ascii_whitespace p.2 = true ∧ p.2 ≠ '\n') →
      is_ascii_whitespace c = false →
      scan_indent ctx st =
        (some (if j - (i + 1) > st.indent_size then .indent ⟨i + 1, j⟩
               else if j - (i + 1) < st.indent_size then .dedent ⟨i + 1, j⟩
               else .linebreak ⟨i + 1, j⟩),
          { st with chars := (j, c) :: rest, indent_size := j - (i + 1) })) ∧
    (∀ (ctx : Ctx) (st : TokenizerState),
      (∀ p ∈ st.chars, is_ascii_whitespace p.2 = true) →
      scan_indent ctx st =
        (some (.eof ⟨ctx.srcLen, ctx.srcLen⟩), { st with chars := [] })) := by
  constructor
  · intro ctx st ws i ws2 j c rest hchars hws1 hws2 hc
    simp only [scan_indent, hchars]
    rw [scan_indent_go_last_nl ws i ws2 j c rest none hws1 hws2 hc]
    simp only []
    split_ifs with h1 h2
    · rfl
    · rfl
    · have hsz : st.indent_size = j - (i + 1) := by omega
      simp [hsz]
  · intro ctx st hws
    rcases hgo : scan_indent_go st.chars none with ⟨s', l⟩
    have h2 := scan_indent_go_all_ws st.chars none hws
    rw [hgo] at h2
    simp only at h2
    subst h2
    simp [scan_indent, hgo]

/-- C7 witness: the indentation statement applied at the Sass sources `\n a`
(whitespace `\n ` before `a`: measured length 1 > stored 0, so `Indent` with
span `[1, 2)` and `indent_size = 1`) and `  ` (EOF inside whitespace:
`Eof`). -/
theorem C7_sass_indentation_witness :
    scan_indent (mk_ctx "\n a".toList .sass) (init_state (mk_ctx "\n a".toList .sass)) =
      (some (.indent ⟨1, 2⟩), ⟨[(2, 'a')], 1, [], .none⟩) ∧
    scan_indent (mk_ctx "  ".toList .sass) (init_state (mk_ctx "  ".toList .sass)) =
      (some (.eof ⟨2, 2⟩), ⟨[], 0, [], .none⟩) := by
  constructor
  · have h := C7_sass_indentation.1 (mk_ctx "\n a".toList .sass)
      (init_state (mk_ctx "\n a".toList .sass)) [] 0 [(1, ' ')] 2 'a' [] rfl
      (by simp) (by decide) (by decide)
    simpa using h
  · have h := C7_sass_indentation.2 (mk_ctx "  ".toList .sass)
      (init_state (mk_ctx "  ".toList .sass)) (by decide)
    simpa using h

/-- `skip_ws` touches only the character cursor. -/
theorem skip_ws_state (st : TokenizerState) :
    (skip_ws st).template = st.template ∧ (skip_ws st).url = st.url :=
  ⟨rfl, rfl⟩

/-- `scan_indent` touches only the character cursor and `indent_size`. -/
theorem scan_indent_state (ctx : Ctx) (st : TokenizerState) :
    ((scan_indent ctx st).2).template = st.template ∧ ((scan_indent ctx st).2).url = st.url := by
  unfold scan_indent
  repeat' split
  all_goals first
    | exact ⟨rfl, rfl⟩
    | (dsimp only; split_ifs <;> exact ⟨rfl, rfl⟩)

/-- `scan_block_comment` touches only the character cursor. -/
theorem scan_block_comment_state (ctx : Ctx) (st : TokenizerState) :
    ((scan_block_comment ctx st).1).template = st.template ∧
      ((scan_block_comment ctx st).1).url = st.url := by
  unfold scan_block_comment
  repeat' split
  all_goals exact ⟨rfl, rfl⟩

/-- `scan_line_comment` touches only the character cursor. -/
theorem scan_line_comment_state (ctx : Ctx) (st : TokenizerState) :
    ((scan_line_comment ctx st).1).template = st.template ∧
      ((scan_line_comment ctx st).1).url = st.url := by
  unfold scan_line_comment
  repeat' split
  all_goals exact ⟨rfl, rfl⟩

/-- The whitespace/comment skipping loop touches only the character cursor,
`indent_size`, and the collected comments. -/
theorem skip_ws_or_comment_go_state (fuel : Nat) (ctx : Ctx) :
    ∀ (st : TokenizerState) (ind : Option Token) (cmts : List Comment),
      ((skip_ws_or_comment_go fuel ctx st ind cmts).2.1).template = st.template ∧
        ((skip_ws_or_comment_go fuel ctx st ind cmts).2.1).url = st.url := by
  induction fuel with
  | zero => intro st ind cmts; exact ⟨rfl, rfl⟩
  | succ fuel ih =>
    intro st ind cmts
    rw [skip_ws_or_comment_go]
    rcases hb : scan_block_comment ctx st with ⟨stB, cB⟩
    rcases hl : scan_line_comment ctx st with ⟨stL, cL⟩
    rcases hi : scan_indent ctx st with ⟨indI, stI⟩
    have hB := scan_block_comment_state ctx st
    rw [hb] at hB
    have hL := scan_line_comment_state ctx st
    rw [hl] at hL
    have hI := scan_indent_state ctx st
    rw [hi] at hI
    dsimp only
    repeat' split
    all_goals first
      | exact ⟨rfl, rfl⟩
      | exact ⟨((ih _ _ _).1).trans hB.1, ((ih _ _ _).2).trans hB.2⟩
      | exact ⟨((ih _ _ _).1).trans hL.1, ((ih _ _ _).2).trans hL.2⟩
      | exact ⟨((ih _ _ _).1).trans hI.1, ((ih _ _ _).2).trans hI.2⟩
      | exact ih _ _ _

/-- `skip_ws_or_comment` preserves the template stack and the url state. -/
theorem skip_ws_or_comment_state (ctx : Ctx) (st : TokenizerState) :
    ((skip_ws_or_comment ctx st).2.1).template = st.template ∧
      ((skip_ws_or_comment ctx st).2.1).url = st.url :=
  skip_ws_or_comment_go_state _ ctx st none []

/-- `scan_escape` touches only the character cursor. -/
theorem scan_escape_state (ctx : Ctx) (st : TokenizerState) (e : Nat)
    (st' : TokenizerState) (h : scan_escape ctx st = .ok (e, st')) :
    st'.template = st.template ∧ st'.url = st.url := by
  unfold scan_escape at h
  dsimp only at h
  split at h
  · split at h
    · cases h
      exact ⟨rfl, rfl⟩
    · cases h
      exact ⟨rfl, rfl⟩
  · cases h

/-- Inversion for the embedded `?` operator: a successful bind comes from a
successful first computation. -/
theorem POut.bind_eq_ok {α β : Type} {x : POut α} {f : α → POut β} {b : β}
    (h : x.bind f = .ok b) : ∃ a, x = .ok a ∧ f a = .ok b := by
  cases x with
  | ok a => exact ⟨a, rfl, h⟩
  | err e => exact absurd h (by simp [POut.bind])
  | panic => exact absurd h (by simp [POut.bind])
  | outOfFuel => exact absurd h (by simp [POut.bind])

/-- The ident continue loop touches only the character cursor. -/
theorem scan_ident_loop_state (fuel : Nat) (ctx : Ctx) :
    ∀ (st : TokenizerState) (e e' : Nat) (st' : TokenizerState),
      scan_ident_loop fuel ctx st e = .ok (e', st') →
      st'.template = st.template ∧ st'.url = st.url := by
  induction fuel with
  | zero => intro st e e' st' h; cases h
  | succ fuel ih =>
    intro st e e' st' h
    simp only [scan_ident_loop] at h
    split at h
    · split at h
      · have h3 := ih _ _ _ _ h
        exact h3
      · split at h
        · obtain ⟨⟨e2, st2⟩, hesc, h⟩ := POut.bind_eq_ok h
          have h2 := scan_escape_state ctx _ e2 st2 hesc
          have h3 := ih _ _ _ _ h
          exact ⟨h3.1.trans h2.1, h3.2.trans h2.2⟩
        · cases h
          exact ⟨rfl, rfl⟩
    · cases h
      exact ⟨rfl, rfl⟩

/-- `scan_ident_finish` touches only the character cursor. -/
theorem scan_ident_finish_state (ctx : Ctx) (st : TokenizerState) (start e0 : Nat)
    (id : TIdent) (st' : TokenizerState)
    (h : scan_ident_finish ctx st start e0 = .ok (id, st')) :
    st'.template = st.template ∧ st'.url = st.url := by
  unfold scan_ident_finish at h
  obtain ⟨⟨e, st2⟩, hloop, h⟩ := POut.bind_eq_ok h
  have h2 := scan_ident_loop_state _ ctx st e0 e st2 hloop
  dsimp only at h
  repeat' split at h
  all_goals first
    | (cases h; exact h2)
    | cases h

/-- `scan_ident_sequence` touches only the character cursor. -/
theorem scan_ident_sequence_state (ctx : Ctx) (st : TokenizerState) (id : TIdent)
    (st' : TokenizerState) (h : scan_ident_sequence ctx st = .ok (id, st')) :
    st'.template = st.template ∧ st'.url = st.url := by
  unfold scan_ident_sequence at h
  dsimp only at h
  repeat' split at h
  all_goals first
    | (have h3 := scan_ident_finish_state ctx _ _ _ _ _ h
       exact h3)
    | (obtain ⟨⟨e0, st2⟩, hesc, h⟩ := POut.bind_eq_ok h
       have h2 := scan_escape_state ctx _ e0 st2 hesc
       have h3 := scan_ident_finish_state ctx _ _ _ _ _ h
       exact ⟨h3.1.trans h2.1, h3.2.trans h2.2⟩)
    | cases h

/-- `scan_number` touches only the character cursor. -/
theorem scan_number_state (ctx : Ctx) (st : TokenizerState) (n : TNumber)
    (st' : TokenizerState) (h : scan_number ctx st = .ok (n, st')) :
    st'.template = st.template ∧ st'.url = st.url := by
  unfold scan_number at h
  dsimp only at h
  repeat' split at h
  all_goals first
    | (cases h; exact ⟨rfl, rfl⟩)
    | cases h

/-- `scan_dimension` touches only the character cursor. -/
theorem scan_dimension_state (ctx : Ctx) (st : TokenizerState) (v : TNumber) (t : Token)
    (st' : TokenizerState) (h : scan_dimension ctx st v = .ok (t, st')) :
    st'.template = st.template ∧ st'.url = st.url := by
  unfold scan_dimension at h
  obtain ⟨⟨unit, st2⟩, hseq, h⟩ := POut.bind_eq_ok h
  have h2 := scan_ident_sequence_state ctx st unit st2 hseq
  cases h
  exact h2

/-- `scan_percentage` touches only the character cursor. -/
theorem scan_percentage_state (ctx : Ctx) (st : TokenizerState) (v : TNumber) (t : Token)
    (st' : TokenizerState) (h : scan_percentage ctx st v = .ok (t, st')) :
    st'.template = st.template ∧ st'.url = st.url := by
  unfold scan_percentage at h
  split at h
  · cases h
  · cases h
    exact ⟨rfl, rfl⟩

/-- `scan_dimension_or_percentage` touches only the character cursor. -/
theorem scan_dimension_or_percentage_state (ctx : Ctx) (st : TokenizerState) (n : TNumber)
    (t : Token) (st' : TokenizerState)
    (h : scan_dimension_or_percentage ctx st n = .ok (t, st')) :
    st'.template = st.template ∧ st'.url = st.url := by
  unfold scan_dimension_or_percentage at h
  dsimp only at h
  repeat' split at h
  all_goals first
    | (exact scan_dimension_state ctx st n t st' h)
    | (exact scan_percentage_state ctx st n t st' h)
    | (cases h; exact ⟨rfl, rfl⟩)

/-- `scan_hash` touches only the character cursor. -/
theorem scan_hash_state (ctx : Ctx) (st : TokenizerState) (t : Token)
    (st' : TokenizerState) (h : scan_hash ctx st = .ok (t, st')) :
    st'.template = st.template ∧ st'.url = st.url := by
  unfold scan_hash at h
  dsimp only at h
  repeat' split at h
  all_goals first
    | (cases h; exact ⟨rfl, rfl⟩)
    | cases h

/-- `scan_at_keyword` touches only the character cursor. -/
theorem scan_at_keyword_state (ctx : Ctx) (st : TokenizerState) (t : Token)
    (st' : TokenizerState) (h : scan_at_keyword ctx st = .ok (t, st')) :
    st'.template = st.template ∧ st'.url = st.url := by
  unfold scan_at_keyword at h
  split at h
  · cases h
  · obtain ⟨⟨id, st2⟩, hseq, h⟩ := POut.bind_eq_ok h
    have h2 := scan_ident_sequence_state ctx _ id st2 hseq
    cases h
    exact h2

/-- `scan_dollar_var` touches only the character cursor. -/
theorem scan_dollar_var_state (ctx : Ctx) (st : TokenizerState) (t : Token)
    (st' : TokenizerState) (h : scan_dollar_var ctx st = .ok (t, st')) :
    st'.template = st.template ∧ st'.url = st.url := by
  unfold scan_dollar_var at h
  split at h
  · cases h
  · obtain ⟨⟨id, st2⟩, hseq, h⟩ := POut.bind_eq_ok h
    have h2 := scan_ident_sequence_state ctx _ id st2 hseq
    cases h
    exact h2

/-- `scan_at_lbrace_var` touches only the character cursor. -/
theorem scan_at_lbrace_var_state (ctx : Ctx) (st : TokenizerState) (t : Token)
    (st' : TokenizerState) (h : scan_at_lbrace_var ctx st = .ok (t, st')) :
    st'.template = st.template ∧ st'.url = st.url := by
  unfold scan_at_lbrace_var at h
  split at h
  · cases h
  · split at h
    · cases h
    · obtain ⟨⟨id, st2⟩, hseq, h⟩ := POut.bind_eq_ok h
      have h2 := scan_ident_sequence_state ctx _ id st2 hseq
      dsimp only at h
      split at h
      · cases h
        exact ⟨h2.1, h2.2⟩
      · cases h
      · cases h

/-- `scan_url` keeps the template stack and sets `url := Ambiguous`. -/
theorem scan_url_state (ctx : Ctx) (st : TokenizerState) (id : TIdent) (t : Token)
    (st' : TokenizerState) (h : scan_url ctx st id = .ok (t, st')) :
    st'.template = st.template ∧ st'.url = .ambiguous ∧
      ∃ sp, t = .urlPrefix id sp := by
  unfold scan_url at h
  split at h
  · cases h
  · cases h
    exact ⟨rfl, rfl, _, rfl⟩

/-- A successful `scan_ident_or_url` returns an `Ident` keeping the state
shape, or a `UrlPrefix` keeping the template stack and setting
`url := Ambiguous`. -/
theorem scan_ident_or_url_state (ctx : Ctx) (st : TokenizerState) (t : Token)
    (st' : TokenizerState) (h : scan_ident_or_url ctx st = .ok (t, st')) :
    ((∃ id, t = .ident id) ∧ st'.template = st.template ∧ st'.url = st.url) ∨
      ((∃ id sp, t = .urlPrefix id sp) ∧ st'.template = st.template ∧
        st'.url = .ambiguous) := by
  unfold scan_ident_or_url at h
  obtain ⟨⟨id, st2⟩, hseq, h⟩ := POut.bind_eq_ok h
  have h2 := scan_ident_sequence_state ctx st id st2 hseq
  dsimp only at h
  repeat' split at h
  all_goals first
    | (cases h; exact .inl ⟨⟨_, rfl⟩, h2⟩)
    | (have h3 := scan_url_state ctx st2 id t st' h
       obtain ⟨sp, hsp⟩ := h3.2.2
       exact .inr ⟨⟨_, sp, hsp⟩, h3.1.trans h2.1, h3.2.1⟩)

/-- From a state with an empty template stack, `scan_punc_one` leaves the
stack empty (the `\x7d` arm flips the top of an empty stack to the empty
stack) and never touches `url`. -/
theorem scan_punc_one_clean (st : TokenizerState) (t : Token) (st' : TokenizerState)
    (htpl : st.template = []) (h : scan_punc_one st = some (t, st')) :
    st'.template = [] ∧ st'.url = st.url := by
  obtain ⟨chars, isz, tpl, url⟩ := st
  simp only at htpl
  subst htpl
  unfold scan_punc_one at h
  rcases chars with _ | ⟨⟨i, c⟩, rest⟩
  · cases h
  · dsimp only at h
    repeat' split at h
    all_goals first
      | (cases h; exact ⟨rfl, rfl⟩)
      | cases h

/-- From a state with an empty template stack, `scan_punc` leaves the stack
empty and never touches `url`. -/
theorem scan_punc_clean (ctx : Ctx) (st : TokenizerState) (t : Token) (st' : TokenizerState)
    (htpl : st.template = []) (h : scan_punc ctx st = some (t, st')) :
    st'.template = [] ∧ st'.url = st.url := by
  unfold scan_punc at h
  split at h
  case _ i a b heq =>
    by_cases hx0 : (a = ':' && b = ':') = true
    · rw [if_pos hx0] at h
      cases h
      exact ⟨htpl, rfl⟩
    rw [if_neg hx0] at h
    by_cases hx1 : (a = '|' && b = '|') = true
    · rw [if_pos hx1] at h
      cases h
      exact ⟨htpl, rfl⟩
    rw [if_neg hx1] at h
    by_cases hx2 : (a = '~' && b = '=') = true
    · rw [if_pos hx2] at h
      cases h
      exact ⟨htpl, rfl⟩
    rw [if_neg hx2] at h
    by_cases hx3 : (a = '|' && b = '=') = true
    · rw [if_pos hx3] at h
      cases h
      exact ⟨htpl, rfl⟩
    rw [if_neg hx3] at h
    by_cases hx4 : (a = '^' && b = '=') = true
    · rw [if_pos hx4] at h
      cases h
      exact ⟨htpl, rfl⟩
    rw [if_neg hx4] at h
    by_cases hx5 : (a = '$' && b = '=') = true
    · rw [if_pos hx5] at h
      cases h
      exact ⟨htpl, rfl⟩
    rw [if_neg hx5] at h
    by_cases hx6 : (a = '*' && b = '=') = true
    · rw [if_pos hx6] at h
      cases h
      exact ⟨htpl, rfl⟩
    rw [if_neg hx6] at h
    by_cases hx7 : (a = '#' && b = '{' && (ctx.dialect = .scss || ctx.dialect = .sass)) = true
    · rw [if_pos hx7] at h
      cases h
      exact ⟨htpl, rfl⟩
    rw [if_neg hx7] at h
    by_cases hx8 : (a = '=' && b = '=' && (ctx.dialect = .scss || ctx.dialect = .sass)) = true
    · rw [if_pos hx8] at h
      cases h
      exact ⟨htpl, rfl⟩
    rw [if_neg hx8] at h
    by_cases hx9 : (a = '!' && b = '=' && (ctx.dialect = .scss || ctx.dialect = .sass)) = true
    · rw [if_pos hx9] at h
      cases h
      exact ⟨htpl, rfl⟩
    rw [if_neg hx9] at h
    by_cases hx10 : (a = '>' && b = '=') = true
    · rw [if_pos hx10] at h
      cases h
      exact ⟨htpl, rfl⟩
    rw [if_neg hx10] at h
    by_cases hx11 : (a = '<' && b = '=') = true
    · rw [if_pos hx11] at h
      cases h
      exact ⟨htpl, rfl⟩
    rw [if_neg hx11] at h
    by_cases hx12 : (a = '+' && b = '_' && ctx.dialect = .less) = true
    · rw [if_pos hx12] at h
      cases h
      exact ⟨htpl, rfl⟩
    rw [if_neg hx12] at h
    exact scan_punc_one_clean st t st' htpl h
  case _ => exact scan_punc_one_clean st t st' htpl h

/-- Fate of the plain string scanner: either a `Str` token with the template
stack untouched, or a head `StrTemplate` with `tail = false` and a fresh
`Interpolation` frame carrying the quote pushed; `url` is never touched. -/
theorem scan_string_body_fate (fuel : Nat) (ctx : Ctx) :
    ∀ (st : TokenizerState) (start : Nat) (quote : Char) (t : Token) (st' : TokenizerState),
      scan_string_body fuel ctx st start quote = .ok (t, st') →
      ((∃ raw v sp, t = .str raw v sp) ∧ st'.template = st.template ∧ st'.url = st.url) ∨
        ((∃ raw v sp, t = .strTemplate raw v false sp) ∧
          st'.template = (TemplateState.interpolation, quote) :: st.template ∧
          st'.url = st.url) := by
  induction fuel with
  | zero => intro st start quote t st' h; cases h
  | succ fuel ih =>
    intro st start quote t st' h
    unfold scan_string_body at h
    rcases hc : st.chars with _ | ⟨⟨i, c⟩, rest⟩ <;> rw [hc] at h
    · cases h
    · dsimp only at h
      repeat' split at h
      all_goals first
        | (cases h; exact .inl ⟨⟨_, _, _, rfl⟩, rfl, rfl⟩)
        | (cases h; exact .inr ⟨⟨_, _, _, rfl⟩, rfl, rfl⟩)
        | (obtain ⟨⟨e, p2⟩, hesc, h⟩ := POut.bind_eq_ok h
           have hE := scan_escape_state ctx _ e p2 hesc
           dsimp only at h
           have h3 := ih _ _ _ _ _ h
           rw [hE.1, hE.2] at h3
           exact h3)
        | (have h3 := ih _ _ _ _ _ h
           exact h3)
        | cases h

/-- Fate of the string-template resumption loop: the head frame is either
popped by the terminating quote (a `StrTemplate` with `tail = true`) or
flipped to `Interpolation` by a `#\x7b`/`@\x7b` interpolation head (a
`StrTemplate` with `tail = false`); `url` is never touched. -/
theorem scan_string_template_body_fate (fuel : Nat) (ctx : Ctx) :
    ∀ (st : TokenizerState) (start : Nat) (quote : Char) (t : Token) (st' : TokenizerState),
      scan_string_template_body fuel ctx st start quote = .ok (t, st') →
      ((∃ raw v sp, t = .strTemplate raw v true sp) ∧
          st'.template = st.template.tail ∧ st'.url = st.url) ∨
        ((∃ raw v sp, t = .strTemplate raw v false sp) ∧
          ((st.template = [] ∧ st'.template = []) ∨
            (∃ ph q ts, st.template = (ph, q) :: ts ∧
              st'.template = (TemplateState.interpolation, q) :: ts)) ∧
          st'.url = st.url) := by
  induction fuel with
  | zero => intro st start quote t st' h; cases h
  | succ fuel ih =>
    intro st start quote t st' h
    unfold scan_string_template_body at h
    obtain ⟨chars, isz, tpl, url⟩ := st
    rcases chars with _ | ⟨⟨i, c⟩, rest⟩
    · cases h
    · dsimp only at h ⊢
      repeat' split at h
      all_goals first
        | (cases h; exact .inl ⟨⟨_, _, _, rfl⟩, rfl, rfl⟩)
        | (cases h; exact .inr ⟨⟨_, _, _, rfl⟩, .inl ⟨rfl, rfl⟩, rfl⟩)
        | (cases h; exact .inr ⟨⟨_, _, _, rfl⟩, .inr ⟨_, _, _, rfl, rfl⟩, rfl⟩)
        | (obtain ⟨⟨e, p2⟩, hesc, h⟩ := POut.bind_eq_ok h
           have hE := scan_escape_state ctx _ e p2 hesc
           dsimp only at h
           have h3 := ih _ _ _ _ _ h
           rw [hE.1, hE.2] at h3
           exact h3)
        | (have h3 := ih _ _ _ _ _ h
           exact h3)
        | cases h

/-- Fate of the url-template resumption loop: the head frame is either
popped by the terminating `)` (a `UrlTemplate` with `tail = true`, with
`url` reset to `None`) or flipped to `Interpolation` by a `#\x7b`
interpolation head (a `UrlTemplate` with `tail = false`, `url` untouched). -/
theorem scan_url_template_body_fate (fuel : Nat) (ctx : Ctx) :
    ∀ (st : TokenizerState) (start : Nat) (t : Token) (st' : TokenizerState),
      scan_url_template_body fuel ctx st start = .ok (t, st') →
      ((∃ raw v sp, t = .urlTemplate raw v true sp) ∧
          st'.template = st.template.tail ∧ st'.url = UrlState.none) ∨
        ((∃ raw v sp, t = .urlTemplate raw v false sp) ∧
          ((st.template = [] ∧ st'.template = []) ∨
            (∃ ph q ts, st.template = (ph, q) :: ts ∧
              st'.template = (TemplateState.interpolation, q) :: ts)) ∧
          st'.url = st.url) := by
  induction fuel with
  | zero => intro st start t st' h; cases h
  | succ fuel ih =>
    intro st start t st' h
    unfold scan_url_template_body at h
    obtain ⟨chars, isz, tpl, url⟩ := st
    rcases chars with _ | ⟨⟨i, c⟩, rest⟩
    · cases h
    · dsimp only at h ⊢
      repeat' split at h
      all_goals first
        | (cases h; exact .inl ⟨⟨_, _, _, rfl⟩, rfl, rfl⟩)
        | (cases h; exact .inr ⟨⟨_, _, _, rfl⟩, .inl ⟨rfl, rfl⟩, rfl⟩)
        | (cases h; exact .inr ⟨⟨_, _, _, rfl⟩, .inr ⟨_, _, _, rfl, rfl⟩, rfl⟩)
        | (obtain ⟨⟨e, p2⟩, hesc, h⟩ := POut.bind_eq_ok h
           have hE := scan_escape_state ctx _ e p2 hesc
           dsimp only at h
           have h3 := ih _ _ _ _ h
           rw [hE.1, hE.2] at h3
           exact h3)
        | (have h3 := ih _ _ _ _ h
           exact h3)
        | cases h

/-- Resuming a `Static` string frame consumes it: the frame is popped by the
terminating quote or flipped back to `Interpolation` by an interpolation
head; `url` is untouched. -/
theorem bump_static_string_fate (ctx : Ctx) (st : TokenizerState) (q : Char)
    (ts : List (TemplateState × Char)) (t : Token) (st' : TokenizerState) (cs : List Comment)
    (htpl : st.template = (TemplateState.static, q) :: ts)
    (hurl : st.url ≠ UrlState.template)
    (h : bump ctx st = .ok (t, st', cs)) :
    ((∃ raw v sp, t = .strTemplate raw v true sp) ∧ st'.template = ts ∧ st'.url = st.url) ∨
      ((∃ raw v sp, t = .strTemplate raw v false sp) ∧
        st'.template = (TemplateState.interpolation, q) :: ts ∧ st'.url = st.url) := by
  unfold bump at h
  rw [htpl] at h
  dsimp only at h
  rw [if_neg hurl] at h
  obtain ⟨⟨t2, st2⟩, hrun, h⟩ := POut.bind_eq_ok h
  dsimp only at h
  cases h
  unfold scan_string_template at hrun
  rw [htpl] at hrun
  dsimp only at hrun
  rcases scan_string_template_body_fate _ ctx st _ q _ _ hrun with ⟨hx, h4, h5⟩ | ⟨hx, h4, h5⟩
  · left
    refine ⟨hx, ?_, h5⟩
    rw [h4, htpl]
    rfl
  · rcases h4 with ⟨hnil, _⟩ | ⟨ph, q2, ts2, hcons, h6⟩
    · rw [htpl] at hnil
      cases hnil
    · rw [htpl] at hcons
      injection hcons with hA hB
      injection hA with hph hq
      subst hq
      subst hB
      right
      exact ⟨hx, h6, h5⟩

/-- Resuming a `Static` url frame consumes it: the frame is popped by the
terminating `)` (resetting `url` to `None`) or flipped back to
`Interpolation` by an interpolation head (keeping `url = Template`). -/
theorem bump_static_url_fate (ctx : Ctx) (st : TokenizerState) (q : Char)
    (ts : List (TemplateState × Char)) (t : Token) (st' : TokenizerState) (cs : List Comment)
    (htpl : st.template = (TemplateState.static, q) :: ts)
    (hurl : st.url = UrlState.template)
    (h : bump ctx st = .ok (t, st', cs)) :
    ((∃ raw v sp, t = .urlTemplate raw v true sp) ∧ st'.template = ts ∧
        st'.url = UrlState.none) ∨
      ((∃ raw v sp, t = .urlTemplate raw v false sp) ∧
        st'.template = (TemplateState.interpolation, q) :: ts ∧
        st'.url = UrlState.template) := by
  unfold bump at h
  rw [htpl] at h
  dsimp only at h
  rw [if_pos hurl] at h
  obtain ⟨⟨t2, st2⟩, hrun, h⟩ := POut.bind_eq_ok h
  dsimp only at h
  cases h
  unfold scan_url_template at hrun
  rcases scan_url_template_body_fate _ ctx st _ _ _ hrun with ⟨hx, h4, h5⟩ | ⟨hx, h4, h5⟩
  · left
    refine ⟨hx, ?_, h5⟩
    rw [h4, htpl]
    rfl
  · rcases h4 with ⟨hnil, _⟩ | ⟨ph, q2, ts2, hcons, h6⟩
    · rw [htpl] at hnil
      cases hnil
    · rw [htpl] at hcons
      injection hcons with hA hB
      injection hA with hph hq
      subst hq
      subst hB
      right
      exact ⟨hx, h6, h5.trans hurl⟩

/-- One `bump` step from a clean state (empty template stack, `url = None`)
returns to a clean state, except that a head `StrTemplate` pushes exactly one
`Interpolation` frame and a `UrlPrefix` sets `url = Ambiguous`. -/
theorem bump_clean_preserved (ctx : Ctx) (st : TokenizerState) (t : Token)
    (st' : TokenizerState) (cs : List Comment)
    (htpl : st.template = []) (hurl : st.url = UrlState.none)
    (h : bump ctx st = .ok (t, st', cs)) :
    (st'.template = [] ∧ st'.url = UrlState.none) ∨
      ((∃ raw v sp, t = .strTemplate raw v false sp) ∧
        (∃ q, st'.template = [(TemplateState.interpolation, q)]) ∧
        st'.url = UrlState.none) ∨
      ((∃ id sp, t = .urlPrefix id sp) ∧ st'.template = [] ∧
        st'.url = UrlState.ambiguous) := by
  unfold bump at h
  rw [htpl, hurl] at h
  dsimp only at h
  rw [if_neg (by decide : ¬(UrlState.none = UrlState.ambiguous))] at h
  rcases hS : skip_ws_or_comment ctx st with ⟨ind, st1, cmts⟩
  rw [hS] at h
  have hP := skip_ws_or_comment_state ctx st
  rw [hS] at hP
  dsimp only at h hP
  have htpl1 : st1.template = [] := hP.1.trans htpl
  have hurl1 : st1.url = UrlState.none := hP.2.trans hurl
  rcases ind with _ | tok
  · dsimp only at h
    split at h
    case _ i a b heq =>
      by_cases hx0 : (a = '\'' || a = '"') = true
      · rw [if_pos hx0] at h
        obtain ⟨⟨t2, st2⟩, hrun, h⟩ := POut.bind_eq_ok h
        dsimp only at h
        cases h
        unfold scan_string_or_template at hrun
        rcases hc1 : st1.chars with _ | ⟨⟨s0, q0⟩, rest0⟩ <;> rw [hc1] at hrun <;>
          dsimp only at hrun
        · cases hrun
        · rcases scan_string_body_fate _ ctx _ _ _ _ _ hrun with ⟨hx, h4, h5⟩ | ⟨hx, h4, h5⟩ <;>
            dsimp only at h4
          · exact .inl ⟨h4.trans htpl1, h5.trans hurl1⟩
          · refine .inr (.inl ⟨hx, ⟨q0, ?_⟩, h5.trans hurl1⟩)
            rw [h4, htpl1]
      rw [if_neg hx0] at h
      by_cases hx1 : ((a = '-' || a = '+') && (is_ascii_digit b || b = '.')) = true
      · rw [if_pos hx1] at h
        obtain ⟨⟨t2, st2⟩, hrun, h⟩ := POut.bind_eq_ok h
        dsimp only at h
        cases h
        obtain ⟨⟨n2, stA⟩, hnum, hrun⟩ := POut.bind_eq_ok hrun
        dsimp only at hrun
        have h3 := scan_number_state ctx st1 _ _ hnum
        have h4 := scan_dimension_or_percentage_state ctx stA _ _ _ hrun
        exact .inl ⟨(h4.1.trans h3.1).trans htpl1, (h4.2.trans h3.2).trans hurl1⟩
      rw [if_neg hx1] at h
      by_cases hx2 : (a = '-' && is_start_of_ident b) = true
      · rw [if_pos hx2] at h
        obtain ⟨⟨t2, st2⟩, hrun, h⟩ := POut.bind_eq_ok h
        dsimp only at h
        cases h
        rcases scan_ident_or_url_state ctx st1 _ _ hrun with ⟨hx, h4, h5⟩ | ⟨hx, h4, h5⟩
        · exact .inl ⟨h4.trans htpl1, h5.trans hurl1⟩
        · exact .inr (.inr ⟨hx, h4.trans htpl1, h5⟩)
      rw [if_neg hx2] at h
      by_cases hx3 : (a = '.' && is_ascii_digit b) = true
      · rw [if_pos hx3] at h
        obtain ⟨⟨t2, st2⟩, hrun, h⟩ := POut.bind_eq_ok h
        dsimp only at h
        cases h
        obtain ⟨⟨n2, stA⟩, hnum, hrun⟩ := POut.bind_eq_ok hrun
        dsimp only at hrun
        have h3 := scan_number_state ctx st1 _ _ hnum
        have h4 := scan_dimension_or_percentage_state ctx stA _ _ _ hrun
        exact .inl ⟨(h4.1.trans h3.1).trans htpl1, (h4.2.trans h3.2).trans hurl1⟩
      rw [if_neg hx3] at h
      by_cases hx4 : (a = '#' &&
          (is_ascii_alphanumeric b || b = '-' || b = '_' || !char_is_ascii b || b = '\\')) = true
      · rw [if_pos hx4] at h
        obtain ⟨⟨t2, st2⟩, hrun, h⟩ := POut.bind_eq_ok h
        dsimp only at h
        cases h
        have h3 := scan_hash_state ctx st1 _ _ hrun
        exact .inl ⟨h3.1.trans htpl1, h3.2.trans hurl1⟩
      rw [if_neg hx4] at h
      by_cases hx5 : (a = '@' && is_start_of_ident b) = true
      · rw [if_pos hx5] at h
        obtain ⟨⟨t2, st2⟩, hrun, h⟩ := POut.bind_eq_ok h
        dsimp only at h
        cases h
        have h3 := scan_at_keyword_state ctx st1 _ _ hrun
        exact .inl ⟨h3.1.trans htpl1, h3.2.trans hurl1⟩
      rw [if_neg hx5] at h
      by_cases hx6 : (a = '$' && (ctx.dialect = .scss || ctx.dialect = .sass) &&
          is_start_of_ident b) = true
      · rw [if_pos hx6] at h
        obtain ⟨⟨t2, st2⟩, hrun, h⟩ := POut.bind_eq_ok h
        dsimp only at h
        cases h
        have h3 := scan_dollar_var_state ctx st1 _ _ hrun
        exact .inl ⟨h3.1.trans htpl1, h3.2.trans hurl1⟩
      rw [if_neg hx6] at h
      by_cases hx7 : (a = '@' && b = '{' && ctx.dialect = .less) = true
      · rw [if_pos hx7] at h
        obtain ⟨⟨t2, st2⟩, hrun, h⟩ := POut.bind_eq_ok h
        dsimp only at h
        cases h
        have h3 := scan_at_lbrace_var_state ctx st1 _ _ hrun
        exact .inl ⟨h3.1.trans htpl1, h3.2.trans hurl1⟩
      rw [if_neg hx7] at h
      repeat' split at h
      all_goals first
        | (cases h; exact .inl ⟨htpl1, hurl1⟩)
        | (obtain ⟨⟨t2, st2⟩, hrun, h⟩ := POut.bind_eq_ok h
           dsimp only at h
           cases h
           obtain ⟨⟨n2, stA⟩, hnum, hrun⟩ := POut.bind_eq_ok hrun
           dsimp only at hrun
           have h3 := scan_number_state ctx st1 _ _ hnum
           have h4 := scan_dimension_or_percentage_state ctx stA _ _ _ hrun
           exact .inl ⟨(h4.1.trans h3.1).trans htpl1, (h4.2.trans h3.2).trans hurl1⟩)
        | (obtain ⟨⟨t2, st2⟩, hrun, h⟩ := POut.bind_eq_ok h
           dsimp only at h
           cases h
           rcases scan_ident_or_url_state ctx st1 _ _ hrun with ⟨hx, h4, h5⟩ | ⟨hx, h4, h5⟩
           · exact .inl ⟨h4.trans htpl1, h5.trans hurl1⟩
           · exact .inr (.inr ⟨hx, h4.trans htpl1, h5⟩))
        | (cases h
           have h3 := scan_punc_clean ctx st1 _ _ htpl1 (by assumption)
           exact .inl ⟨h3.1, h3.2.trans hurl1⟩)
        | cases h
    case _ =>
      repeat' split at h
      all_goals first
        | (cases h; exact .inl ⟨htpl1, hurl1⟩)
        | (obtain ⟨⟨t2, st2⟩, hrun, h⟩ := POut.bind_eq_ok h
           dsimp only at h
           cases h
           obtain ⟨⟨n2, stA⟩, hnum, hrun⟩ := POut.bind_eq_ok hrun
           dsimp only at hrun
           have h3 := scan_number_state ctx st1 _ _ hnum
           have h4 := scan_dimension_or_percentage_state ctx stA _ _ _ hrun
           exact .inl ⟨(h4.1.trans h3.1).trans htpl1, (h4.2.trans h3.2).trans hurl1⟩)
        | (obtain ⟨⟨t2, st2⟩, hrun, h⟩ := POut.bind_eq_ok h
           dsimp only at h
           cases h
           rcases scan_ident_or_url_state ctx st1 _ _ hrun with ⟨hx, h4, h5⟩ | ⟨hx, h4, h5⟩
           · exact .inl ⟨h4.trans htpl1, h5.trans hurl1⟩
           · exact .inr (.inr ⟨hx, h4.trans htpl1, h5⟩))
        | (cases h
           have h3 := scan_punc_clean ctx st1 _ _ htpl1 (by assumption)
           exact .inl ⟨h3.1, h3.2.trans hurl1⟩)
        | cases h
  · dsimp only at h
    cases h
    exact .inl ⟨htpl1, hurl1⟩

/-- C9: template-frame discipline of `bump`.  (1) Corrected balancing
conjunct: whenever the top template frame is `Interpolation` and the next
character is `\x7d` (with `url` not in the `Ambiguous` probe state), `bump`
emits `RBrace` and flips the frame to `Static` regardless of whether that
`\x7d` balances the interpolation — the `RBrace` arm of `scan_punc` touches
the top frame unconditionally.  (2) Every `Static` string frame is consumed:
resuming it pops the frame at the terminating quote (`StrTemplate` with
`tail = true`) or flips it back to `Interpolation` at an interpolation head
(`tail = false`), `url` untouched.  (3) Every `Static` url frame likewise,
with `url` reset to `None` at the terminating `)`.  (4) Top-level
cleanliness, per `bump` step (the whole-file parse driver lives outside the
given sources): from an empty template stack with `url = None`, one `bump`
returns to the clean state, except that a head `StrTemplate` pushes exactly
one `Interpolation` frame and a `UrlPrefix` sets `url = Ambiguous`. -/
theorem C9_template_frame_discipline :
    (∀ (ctx : Ctx) (st : TokenizerState) (i : Nat) (rest : List (Nat × Char)) (q : Char)
        (ts : List (TemplateState × Char)),
        st.template = (.interpolation, q) :: ts →
        st.chars = (i, '}') :: rest →
        st.url ≠ .ambiguous →
        bump ctx st = .ok (.rBrace ⟨i, i + 1⟩,
          { st with chars := rest, template := (.static, q) :: ts }, [])) ∧
    (∀ (ctx : Ctx) (st : TokenizerState) (q : Char) (ts : List (TemplateState × Char))
        (t : Token) (st' : TokenizerState) (cs : List Comment),
        st.template = (TemplateState.static, q) :: ts →
        st.url ≠ UrlState.template →
        bump ctx st = .ok (t, st', cs) →
        ((∃ raw v sp, t = .strTemplate raw v true sp) ∧ st'.template = ts ∧
            st'.url = st.url) ∨
          ((∃ raw v sp, t = .strTemplate raw v false sp) ∧
            st'.template = (TemplateState.interpolation, q) :: ts ∧ st'.url = st.url)) ∧
    (∀ (ctx : Ctx) (st : TokenizerState) (q : Char) (ts : List (TemplateState × Char))
        (t : Token) (st' : TokenizerState) (cs : List Comment),
        st.template = (TemplateState.static, q) :: ts →
        st.url = UrlState.template →
        bump ctx st = .ok (t, st', cs) →
        ((∃ raw v sp, t = .urlTemplate raw v true sp) ∧ st'.template = ts ∧
            st'.url = UrlState.none) ∨
          ((∃ raw v sp, t = .urlTemplate raw v false sp) ∧
            st'.template = (TemplateState.interpolation, q) :: ts ∧
            st'.url = UrlState.template)) ∧
    (∀ (ctx : Ctx) (st : TokenizerState) (t : Token) (st' : TokenizerState)
        (cs : List Comment),
        st.template = [] →
        st.url = UrlState.none →
        bump ctx st = .ok (t, st', cs) →
        (st'.template = [] ∧ st'.url = UrlState.none) ∨
          ((∃ raw v sp, t = .strTemplate raw v false sp) ∧
            (∃ q, st'.template = [(TemplateState.interpolation, q)]) ∧
            st'.url = UrlState.none) ∨
          ((∃ id sp, t = .urlPrefix id sp) ∧ st'.template = [] ∧
            st'.url = UrlState.ambiguous)) := by
  refine ⟨?_, bump_static_string_fate, bump_static_url_fate, bump_clean_preserved⟩
  intro ctx st i rest q ts htpl hchars hurl
  obtain ⟨chars, isz, tpl, url⟩ := st
  simp only at htpl hchars hurl ⊢
  subst htpl hchars
  rcases rest with _ | ⟨⟨j, d⟩, rest'⟩ <;>
    simp +decide [bump, hurl, skip_ws_or_comment, skip_ws_or_comment_go, peek_two_chars,
      peek_one_char, is_ascii_whitespace, scan_punc, scan_punc_one, current_offset,
      POut.bind, if_neg]

/-- C9 witness: the four conjuncts applied at concrete states — the frame
flip at a `\x7d` under an `Interpolation` frame, a `Static` string frame
popped by its closing quote, a `Static` url frame popped by `)` with `url`
reset, and a clean-state `bump` over `;`. -/
theorem C9_template_frame_discipline_witness :
    (bump (mk_ctx "\x7d".toList .scss) ⟨[(0, '}')], 0, [(.interpolation, '"')], .none⟩ =
      .ok (.rBrace ⟨0, 1⟩, ⟨[], 0, [(.static, '"')], .none⟩, [])) ∧
    (((∃ raw v sp, Token.strTemplate ['c'] ['c'] true ⟨1, 3⟩ = .strTemplate raw v true sp) ∧
        ([] : List (TemplateState × Char)) = [] ∧ UrlState.none = UrlState.none) ∨
      ((∃ raw v sp, Token.strTemplate ['c'] ['c'] true ⟨1, 3⟩ = .strTemplate raw v false sp) ∧
        ([] : List (TemplateState × Char)) = [(.interpolation, '"')] ∧
        UrlState.none = UrlState.none)) ∧
    (((∃ raw v sp, Token.urlTemplate ['c'] ['c'] true ⟨4, 5⟩ = .urlTemplate raw v true sp) ∧
        ([] : List (TemplateState × Char)) = [] ∧ UrlState.none = UrlState.none) ∨
      ((∃ raw v sp, Token.urlTemplate ['c'] ['c'] true ⟨4, 5⟩ = .urlTemplate raw v false sp) ∧
        ([] : List (TemplateState × Char)) = [(.interpolation, ')')] ∧
        UrlState.none = UrlState.template)) ∧
    ((([] : List (TemplateState × Char)) = [] ∧ UrlState.none = UrlState.none) ∨
      ((∃ raw v sp, Token.semicolon ⟨0, 1⟩ = .strTemplate raw v false sp) ∧
        (∃ q, ([] : List (TemplateState × Char)) = [(TemplateState.interpolation, q)]) ∧
        UrlState.none = UrlState.none) ∨
      ((∃ id sp, Token.semicolon ⟨0, 1⟩ = .urlPrefix id sp) ∧
        ([] : List (TemplateState × Char)) = [] ∧
        UrlState.none = UrlState.ambiguous)) := by
  refine ⟨?_, ?_, ?_, ?_⟩
  · exact C9_template_frame_discipline.1 _ _ 0 [] '"' [] rfl rfl (by decide)
  · exact C9_template_frame_discipline.2.1 (mk_ctx "\"c\"".toList .scss)
      ⟨[(1, 'c'), (2, '"')], 0, [(.static, '"')], .none⟩ '"' [] _ _ _ rfl (by decide) rfl
  · exact C9_template_frame_discipline.2.2.1 (mk_ctx "url(c)".toList .scss)
      ⟨[(4, 'c'), (5, ')')], 0, [(.static, ')')], .template⟩ ')' [] _ _ _ rfl rfl rfl
  · exact C9_template_frame_discipline.2.2.2 (mk_ctx ";".toList .scss)
      (init_state (mk_ctx ";".toList .scss)) _ _ _ rfl rfl rfl
